import Mathlib

/-!
Handle registry and safe database connector.

A shallow embedding of
* `ultrathink-scaffold/lib/magic/go/interop.go` (package `interop`): the
  process-wide handle registry, and
* `ultrathink-scaffold/src/go/database_connector.go` (package `db`): the
  `DBConnector` / `Result` wrappers together with the package-local `interop`
  table of functions they call.

Conventions.
* Go's `uint64` is a `Nat`; the only arithmetic on it, `nextHandle++`, is taken
  modulo `2^64`.
* A Go `error` is an `Option String` (`none` is `nil`, `some msg` carries the
  text of `Error()`); a `(T, error)` result is an `Except String T`.
* A Go `map[uint64]interface{}` is a function `Nat → Option Value`
  (`none` where the key is absent).
* Every function runs under its mutex from entry to return, so each call is one
  atomic step on the state it guards.
-/

deriving instance DecidableEq for Except

/-- The anonymous struct `struct { ID int; Username string; Email string }`, the
same type in both packages. -/
structure UserData where
  ID : Int
  Username : String
  Email : String
deriving DecidableEq, Repr

namespace interop

/-- A dynamic value held in an `interface{}`: the nil interface, a value of the
anonymous user struct type, or a value of any other dynamic type. -/
inductive Value where
  | nil
  | userData (u : UserData)
  | obj (id : Nat)
deriving DecidableEq, Repr

/-- The package-level variables `handleRegistry` and `nextHandle`. -/
structure Registry where
  handleRegistry : Nat → Option Value
  nextHandle : Nat

/-- The initial values: `make(map[uint64]interface{})` and `1`. -/
def Registry.init : Registry :=
  { handleRegistry := fun _ => none, nextHandle := 1 }

/-- The statement `handleRegistry[handle] = v`. -/
def mapStore (m : Nat → Option Value) (handle : Nat) (v : Value) : Nat → Option Value :=
  fun k => if k = handle then some v else m k

/-- The statement `delete(handleRegistry, handle)`. -/
def mapDelete (m : Nat → Option Value) (handle : Nat) : Nat → Option Value :=
  fun k => if k = handle then none else m k

/-- `CreateConnHandle(connector)`: the new state and the returned handle. -/
def CreateConnHandle (r : Registry) (connector : Value) : Registry × Nat :=
  let handle := r.nextHandle
  ({ handleRegistry := mapStore r.handleRegistry handle connector,
     nextHandle := (r.nextHandle + 1) % 2 ^ 64 }, handle)

/-- `GetConnectorFromHandle(handle)`. -/
def GetConnectorFromHandle (r : Registry) (handle : Nat) : Except String Value :=
  match r.handleRegistry handle with
  | some connector => .ok connector
  | none => .error ("invalid connector handle: " ++ toString handle)

/-- `CreateResultHandle(result)`: the new state and the returned handle. -/
def CreateResultHandle (r : Registry) (result : Value) : Registry × Nat :=
  let handle := r.nextHandle
  ({ handleRegistry := mapStore r.handleRegistry handle result,
     nextHandle := (r.nextHandle + 1) % 2 ^ 64 }, handle)

/-- `GetResultFromHandle(handle)`. -/
def GetResultFromHandle (r : Registry) (handle : Nat) : Except String Value :=
  match r.handleRegistry handle with
  | some result => .ok result
  | none => .error ("invalid result handle: " ++ toString handle)

/-- `CreateUserHandle(id, username, email)`: the new state and the returned handle. -/
def CreateUserHandle (r : Registry) (id : Int) (username email : String) : Registry × Nat :=
  let handle := r.nextHandle
  let userData : UserData := { ID := id, Username := username, Email := email }
  ({ handleRegistry := mapStore r.handleRegistry handle (.userData userData),
     nextHandle := (r.nextHandle + 1) % 2 ^ 64 }, handle)

/-- `ExtractUserData(handle)`; the type assertion succeeds exactly on a stored
value of the anonymous user struct type. -/
def ExtractUserData (r : Registry) (handle : Nat) : Except String UserData :=
  match r.handleRegistry handle with
  | some (.userData user) => .ok user
  | some _ => .error ("handle " ++ toString handle ++ " does not contain user data")
  | none => .error ("invalid user handle: " ++ toString handle)

/-- `FreeHandle(handle)`: the new state and the returned error. -/
def FreeHandle (r : Registry) (handle : Nat) : Registry × Option String :=
  match r.handleRegistry handle with
  | some _ => ({ r with handleRegistry := mapDelete r.handleRegistry handle }, none)
  | none => (r, some ("invalid handle: " ++ toString handle))

/-- One call of a state-changing registry function. -/
inductive Call where
  | createConn (connector : Value)
  | createResult (result : Value)
  | createUser (id : Int) (username email : String)
  | free (handle : Nat)
deriving DecidableEq, Repr

/-- What a call hands back: a handle (creators) or an error value (`FreeHandle`). -/
inductive Ret where
  | handle (h : Nat)
  | err (e : Option String)
deriving DecidableEq, Repr

/-- Whether the call is one of the three creators. -/
def Call.isCreate : Call → Bool
  | .free _ => false
  | _ => true

/-- Execute one call. -/
def step (r : Registry) : Call → Registry × Ret
  | .createConn x => let p := CreateConnHandle r x; (p.1, .handle p.2)
  | .createResult x => let p := CreateResultHandle r x; (p.1, .handle p.2)
  | .createUser id u e => let p := CreateUserHandle r id u e; (p.1, .handle p.2)
  | .free h => let p := FreeHandle r h; (p.1, .err p.2)

/-- The state after a sequence of calls. -/
def run (r : Registry) : List Call → Registry
  | [] => r
  | c :: cs => run (step r c).1 cs

/-- The handles returned by the creation calls of a sequence, in call order. -/
def handles (r : Registry) : List Call → List Nat
  | [] => []
  | c :: cs =>
    match (step r c).2 with
    | .handle h => h :: handles (step r c).1 cs
    | .err _ => handles (step r c).1 cs

/-- The number of creation calls in a sequence. -/
def creations (cs : List Call) : Nat := (cs.filter Call.isCreate).length

/-- `CallMojoFunction(funcName, args...)`: the returned value and the returned
error, `return nil, fmt.Errorf("mojo function calls not implemented")`. -/
def CallMojoFunction (_funcName : String) (_args : List Value) : Value × Option String :=
  (.nil, some "mojo function calls not implemented")

/-- `CallJavaMethod(className, methodName, args...)`: the returned value and the
returned error. -/
def CallJavaMethod (_className _methodName : String) (_args : List Value) :
    Value × Option String :=
  (.nil, some "java method calls not implemented")

/-- `CallSwiftFunction(funcName, args...)`: the returned value and the returned
error. -/
def CallSwiftFunction (_funcName : String) (_args : List Value) : Value × Option String :=
  (.nil, some "swift function calls not implemented")

/-- The text `part` occurs in the text `msg` as a run of consecutive characters. -/
def occursIn (part msg : String) : Prop := part.data <:+: msg.data

instance (part msg : String) : Decidable (occursIn part msg) :=
  inferInstanceAs (Decidable (part.data <:+: msg.data))

end interop

namespace db

/-- A value a driver hands to `Scan` through an `*interface{}` destination. The
kinds whose `%v` text is not reproduced here (`float64`, `time.Time`) are carried
together with that text. -/
inductive SqlValue where
  | null
  | int64 (v : Int)
  | bool (v : Bool)
  | string (v : String)
  | bytes (v : List Nat)
  | other (text : String)
deriving DecidableEq, Repr

/-- The text `fmt.Sprintf("%v", val)` of a scanned value. -/
def sprintfV : SqlValue → String
  | .null => "<nil>"
  | .int64 v => toString v
  | .bool v => toString v
  | .string v => v
  | .bytes v => "[" ++ " ".intercalate (v.map toString) ++ "]"
  | .other text => text

/-- The state of a `*sql.Rows` cursor as `cacheResults` sees it: what `Columns()`
answers, the rows `Next()` will still yield (each with the outcome of its `Scan`),
and whether `Close()` has been called on it. -/
structure Rows where
  columnsRes : Except String (List String)
  pending : List (Except String (List SqlValue))
  closed : Bool
deriving DecidableEq, Repr

/-- The struct `Result`; `rows` is the cursor the pointer field refers to
(`none` is a nil pointer). -/
structure Result where
  rows : Option Rows
  resultData : List (List String)
  columns : List String
  closed : Bool
deriving DecidableEq, Repr

/-- The struct `DBConnector`; `db` names the `*sql.DB` object the pointer field
refers to (`none` is a nil pointer). -/
structure DBConnector where
  connectionString : String
  isConnected : Bool
  db : Option Nat
  connHandle : Nat
deriving DecidableEq, Repr

/-- The calls a connector method makes on its collaborators, in call order. -/
inductive Event where
  | sqlOpen (dataSourceName : String)
  | dbPing (db : Nat)
  | dbClose (db : Nat)
  | dbQuery (db : Nat) (query : String) (args : List SqlValue)
  | createConnHandle
  | freeHandle (handle : Nat)
deriving DecidableEq, Repr

/-! The package-level variable `interop` of `database_connector.go`: a struct of
function values, each of them a constant function. -/

/-- `interop.RegisterFinalizer`: the body is empty. -/
def interop.RegisterFinalizer {α β : Type} (_obj : α) (_finalizer : β) : Unit := ()

/-- `interop.CreateConnHandle`: `return 1`. -/
def interop.CreateConnHandle {α : Type} (_connector : α) : Nat := 1

/-- `interop.FreeHandle`: `return nil`. -/
def interop.FreeHandle (_handle : Nat) : Option String := none

/-- `interop.CreateResultHandle`: `return 2`. -/
def interop.CreateResultHandle {α : Type} (_result : α) : Nat := 2

/-- `interop.CreateUserHandle`: `return 3`. -/
def interop.CreateUserHandle (_id : Int) (_username _email : String) : Nat := 3

/-- `interop.ExtractUserData`: the zero user record and a nil error. -/
def interop.ExtractUserData (_handle : Nat) : Except String UserData :=
  .ok { ID := 0, Username := "", Email := "" }

/-- `NewDBConnector(connectionString)`; the remaining fields take their zero
values, and the finalizer registration has no effect. -/
def NewDBConnector (connectionString : String) : DBConnector :=
  { connectionString := connectionString, isConnected := false, db := none, connHandle := 0 }

/-- `(*DBConnector).Connect`. `openRes` is what `sql.Open` answers (`(nil, err)`
or `(db, nil)`) and `pingRes` what `Ping` answers, should they be called. Gives
the connector afterwards, the returned error and the calls made. -/
def DBConnector.Connect (c : DBConnector) (openRes : Except String Nat)
    (pingRes : Option String) : DBConnector × Option String × List Event :=
  if c.isConnected then (c, none, [])
  else
    match openRes with
    | .error err =>
      ({ c with db := none }, some ("failed to connect to database: " ++ err),
        [.sqlOpen c.connectionString])
    | .ok d =>
      let c1 := { c with db := some d }
      match pingRes with
      | some err =>
        (c1, some ("failed to ping database: " ++ err),
          [.sqlOpen c.connectionString, .dbPing d, .dbClose d])
      | none =>
        let c2 := { c1 with isConnected := true }
        ({ c2 with connHandle := interop.CreateConnHandle c2 }, none,
          [.sqlOpen c.connectionString, .dbPing d, .createConnHandle])

/-- `(*DBConnector).Close`. `closeRes` is what the driver's `Close` answers,
should it be called. `none` is a run-time panic (method call through a nil
`*sql.DB`); otherwise the connector afterwards, the returned error and the calls
made. The value `interop.FreeHandle` returns is discarded by the source. -/
def DBConnector.Close (c : DBConnector) (closeRes : Option String) :
    Option (DBConnector × Option String × List Event) :=
  if !c.isConnected then some (c, none, [])
  else
    let p : DBConnector × List Event :=
      if c.connHandle != 0 then ({ c with connHandle := 0 }, [.freeHandle c.connHandle])
      else (c, [])
    match p.1.db with
    | none => none
    | some d => some ({ p.1 with isConnected := false }, closeRes, p.2 ++ [.dbClose d])

/-- The slice `values` after a successful `Scan` into `len(columns)` destinations:
slot `i` holds the value the driver wrote there (nil where it wrote none). -/
def scanInto (n : Nat) (vals : List SqlValue) : List SqlValue :=
  (List.range n).map (fun i => vals.getD i .null)

/-- The conversion loop of `cacheResults`: nil becomes the empty text, any other
value its `%v` text. -/
def stringValues (values : List SqlValue) : List String :=
  values.map (fun val => if val = .null then "" else sprintfV val)

/-- The loop `for r.rows.Next() { ... }` of `cacheResults` over the rows the cursor
yields: a row whose `Scan` fails is skipped, any other is appended. -/
def cacheRows (n : Nat) : List (Except String (List SqlValue)) → List (List String) →
    List (List String)
  | [], resultData => resultData
  | .error _ :: rest, resultData => cacheRows n rest resultData
  | .ok vals :: rest, resultData =>
    cacheRows n rest (resultData ++ [stringValues (scanInto n vals)])

/-- `(*Result).cacheResults` on a result whose `rows` refers to the cursor `rows`. -/
def Result.cacheResults (r : Result) (rows : Rows) : Result :=
  match rows.columnsRes with
  | .error _ => { r with columns := [] }
  | .ok columns =>
    { r with
      columns := columns,
      resultData := cacheRows columns.length rows.pending [],
      rows := some { rows with pending := [], closed := true } }

/-- `NewResult(rows)` for a non-nil cursor. -/
def NewResult (rows : Rows) : Result :=
  let result : Result := { rows := some rows, resultData := [], columns := [], closed := false }
  result.cacheResults rows

/-- `(*DBConnector).Query`. `queryRes` is what the driver's `Query` answers
(`(nil, err)` or `(rows, nil)`), should it be called. `none` is a run-time panic
(method call through a nil `*sql.DB`). -/
def DBConnector.Query (c : DBConnector) (query : String) (args : List SqlValue)
    (queryRes : Except String Rows) :
    Option (DBConnector × Except String Result × List Event) :=
  if !c.isConnected then some (c, .error "not connected to database", [])
  else
    match c.db with
    | none => none
    | some d =>
      match queryRes with
      | .error err => some (c, .error ("query failed: " ++ err), [.dbQuery d query args])
      | .ok rows => some (c, .ok (NewResult rows), [.dbQuery d query args])

/-- `(*Result).GetRowCount`. -/
def Result.GetRowCount (r : Result) : Int := r.resultData.length

/-- `(*Result).GetColumnCount`. -/
def Result.GetColumnCount (r : Result) : Int := r.columns.length

/-- `(*Result).GetColumnNames`. -/
def Result.GetColumnNames (r : Result) : List String := r.columns

/-- `(*Result).GetValue`; `none` is a run-time panic (index out of range). -/
def Result.GetValue (r : Result) (row column : Int) : Option (Except String String) :=
  if row < 0 ∨ row ≥ r.resultData.length then some (.error "row index out of bounds")
  else if column < 0 ∨ column ≥ r.columns.length then
    some (.error "column index out of bounds")
  else
    match r.resultData.get? row.toNat with
    | none => none
    | some cells =>
      match cells.get? column.toNat with
      | none => none
      | some text => some (.ok text)

/-- `(*Result).Close`. -/
def Result.Close (r : Result) : Result :=
  if !r.closed then
    { r with rows := r.rows.map (fun rows => { rows with closed := true }), closed := true }
  else r

/-- `(*Result).GetHandle`. -/
def Result.GetHandle (r : Result) : Nat := interop.CreateResultHandle r

/-- One call of a connector method together with the answers of the driver. -/
inductive DBCall where
  | connect (openRes : Except String Nat) (pingRes : Option String)
  | close (closeRes : Option String)
  | query (query : String) (args : List SqlValue) (queryRes : Except String Rows)
deriving DecidableEq, Repr

/-- Execute one connector call: the connector afterwards and the calls made, or
`none` for a panic. -/
def DBConnector.step (c : DBConnector) : DBCall → Option (DBConnector × List Event)
  | .connect openRes pingRes =>
    let p := c.Connect openRes pingRes
    some (p.1, p.2.2)
  | .close closeRes => (c.Close closeRes).map (fun p => (p.1, p.2.2))
  | .query q args queryRes => (c.Query q args queryRes).map (fun p => (p.1, p.2.2))

/-- The connector after a sequence of calls, `none` if one of them panics. -/
def DBConnector.runCalls (c : DBConnector) : List DBCall → Option DBConnector
  | [] => some c
  | call :: calls =>
    match c.step call with
    | none => none
    | some p => p.1.runCalls calls

/-- The connector states a program can observe: those `NewDBConnector` followed
by finitely many `Connect`, `Close` and `Query` calls leads to. -/
def Reachable (c : DBConnector) : Prop :=
  ∃ connectionString calls, (NewDBConnector connectionString).runCalls calls = some c

/-- The rows of a cursor whose `Scan` succeeds, in cursor order. -/
def Rows.scanned (rows : Rows) : List (List SqlValue) :=
  rows.pending.filterMap (fun row => match row with
    | .ok vals => some vals
    | .error _ => none)

/-- One call of a `Result` method. -/
inductive ResultCall where
  | getRowCount
  | getColumnCount
  | getColumnNames
  | getValue (row column : Int)
  | close
  | getHandle
deriving DecidableEq, Repr

/-- Execute one `Result` call: the result object afterwards, or `none` for a
panic. Only `Close` writes a field; `GetHandle` calls `interop.CreateResultHandle`,
which keeps no state. -/
def Result.step (r : Result) : ResultCall → Option Result
  | .getValue row column => (r.GetValue row column).map (fun _ => r)
  | .close => some r.Close
  | _ => some r

/-- A call on a result object or on a connector. -/
inductive AnyCall where
  | onResult (call : ResultCall)
  | onConnector (call : DBCall)
deriving DecidableEq, Repr

/-- A connector and a result object after a sequence of calls on either of them,
`none` if one of the calls panics. -/
def runAll (c : DBConnector) (r : Result) : List AnyCall → Option (DBConnector × Result)
  | [] => some (c, r)
  | .onResult call :: calls =>
    match r.step call with
    | none => none
    | some r1 => runAll c r1 calls
  | .onConnector call :: calls =>
    match c.step call with
    | none => none
    | some p => runAll p.1 r calls

/-- The struct `User`. -/
structure User where
  ID : Int
  Username : String
  Email : String
deriving DecidableEq, Repr

/-- `NewUserFromHandle(handle)`. -/
def NewUserFromHandle (handle : Nat) : Except String User :=
  match interop.ExtractUserData handle with
  | .error err => .error err
  | .ok userData =>
    .ok { ID := userData.ID, Username := userData.Username, Email := userData.Email }

/-- `(*User).ToHandle`. -/
def User.ToHandle (u : User) : Nat := interop.CreateUserHandle u.ID u.Username u.Email

end db

/-! The remaining packages: `models`, `db` of `src/db/db.go` (named `projectdb`
here, the name `db` being taken by the connector package above),
`server` of `src/grpc/server/user_server.go`, `vertex` and `api`. In these packages
the identity of an error value matters (`err == sql.ErrNoRows`), so an `error` is a
`GoError`; the answers of the database, of the prediction service and of the
conversion functions of `structpb` are arguments of the functions that ask for
them. -/

/-- A non-nil Go `error` value: the variable `sql.ErrNoRows`, a value made by a
call of `fmt.Errorf` (with the formatted message; a `%w` operand is part of the
message, and `==` does not look at it), or any other error value. -/
inductive GoError where
  | ErrNoRows
  | errorf (msg : String)
  | other (msg : String)
deriving DecidableEq, Repr

/-- The method `Error()`. -/
def GoError.Error : GoError → String
  | .ErrNoRows => "sql: no rows in result set"
  | .errorf msg => msg
  | .other msg => msg

/-- A value held in a `map[string]interface{}` or passed as `interface{}`:
what `encoding/json` decodes, and a `map[string]string`. -/
inductive Json where
  | null
  | bool (b : Bool)
  | number (n : Int)
  | string (s : String)
  | stringMap (m : List (String × String))
  | array (items : List Json)
  | object (fields : List (String × Json))
deriving Repr

namespace models

/-- Modelled from the spec: the struct `models.User` is declared in a file that is
not among the sources; it is the user record "{ numeric id, username, email }",
with the field names `ID`, `Username`, `Email` that `db.go` and `user_server.go`
read and write. -/
structure User where
  ID : Int
  Username : String
  Email : String
deriving DecidableEq, Repr

end models

namespace projectdb

/-- `GetUserByID(db, id)`. `scanRes` is what
`db.QueryRow("SELECT ... WHERE id = $1", id).Scan(...)` answers: the row, or an
error, which is `sql.ErrNoRows` when the query selects no row. -/
def GetUserByID (id : Int) (scanRes : Except GoError models.User) :
    Except GoError models.User :=
  match scanRes with
  | .error err =>
    if err = .ErrNoRows then
      .error (.errorf ("user with ID " ++ toString id ++ " not found"))
    else .error (.errorf ("failed to get user by ID: " ++ err.Error))
  | .ok user => .ok user

end projectdb

namespace server

/-- The status codes of `google.golang.org/grpc/codes` the server uses. -/
inductive Code where
  | NotFound
  | Internal
deriving DecidableEq, Repr

/-- The error `status.Error(code, message)`. -/
structure Status where
  code : Code
  message : String
deriving DecidableEq, Repr

/-- The message `pb.User`. -/
structure PbUser where
  Id : Int
  Username : String
  Email : String
deriving DecidableEq, Repr

/-- The message `pb.UserResponse`; unset fields take their zero values. -/
structure UserResponse where
  User : Option PbUser
  ErrorMessage : String
deriving DecidableEq, Repr

/-- The conversion `int32(x)` of an `int`. -/
def int32 (x : Int) : Int := (x + 2 ^ 31) % 2 ^ 32 - 2 ^ 31

/-- `(*UserServiceServer).GetUser` for a request with `Id = reqId`: the returned
response and the returned error (`none` is nil). -/
def GetUser (reqId : Int) (scanRes : Except GoError models.User) :
    UserResponse × Option Status :=
  match projectdb.GetUserByID reqId scanRes with
  | .error err =>
    if err = .ErrNoRows then
      ({ User := none, ErrorMessage := "User with ID " ++ toString reqId ++ " not found" },
        some { code := .NotFound, message := "user not found" })
    else
      ({ User := none, ErrorMessage := "Internal server error" },
        some { code := .Internal, message := err.Error })
  | .ok user =>
    ({ User := some { Id := int32 user.ID, Username := user.Username, Email := user.Email },
       ErrorMessage := "" }, none)

end server

namespace vertex

/-- The first loop of `Predict`: every instance goes through `structpb.NewValue`
(`newValue`), and the first failure ends the call. -/
def convertInstances (newValue : Json → Except GoError Json) :
    List Json → Except GoError (List Json)
  | [] => .ok []
  | inst :: rest =>
    match newValue inst with
    | .error err =>
      .error (.errorf ("failed to convert instance to structpb.Value: " ++ err.Error))
    | .ok value =>
      match convertInstances newValue rest with
      | .error err => .error err
      | .ok values => .ok (value :: values)

/-- The second loop of `Predict`: every prediction of the reply goes through
`AsMap()` (`asMap`) and is appended; the first failure ends the call. -/
def convertPredictions (asMap : Json → Except GoError Json) :
    List Json → List Json → Except GoError (List Json)
  | [], predictions => .ok predictions
  | prediction :: rest, predictions =>
    match asMap prediction with
    | .error err => .error (.errorf ("failed to convert prediction to map: " ++ err.Error))
    | .ok p => convertPredictions asMap rest (predictions ++ [p])

/-- `(*Client).Predict(ctx, instances)`. `predictRes` is what the prediction
service answers: an error, or the list `resp.Predictions` of a successful reply. -/
def Client.Predict (instances : List Json) (newValue : Json → Except GoError Json)
    (predictRes : Except GoError (List Json)) (asMap : Json → Except GoError Json) :
    Except GoError (List Json) :=
  match convertInstances newValue instances with
  | .error err => .error err
  | .ok _ =>
    match predictRes with
    | .error err => .error (.errorf ("failed to get prediction: " ++ err.Error))
    | .ok respPredictions => convertPredictions asMap respPredictions []

end vertex

namespace api

/-- The struct `RCCTRequest`. -/
structure RCCTRequest where
  Input : String
  UserID : Int
  ModelParams : List (String × String)
  MetaAnalysis : Bool
deriving DecidableEq, Repr

/-- The struct `RCCTResponse`. -/
structure RCCTResponse where
  StructuredAnalysis : Json
  Prediction : Json
  MetaObservations : List String
  UserData : Option models.User
deriving Repr

/-- What a handler writes to its `http.ResponseWriter`: `http.Error(w, msg, code)`,
a status and body copied from another service, or a body encoded as JSON with
status 200. -/
inductive Written (β : Type) where
  | httpError (msg : String) (code : Nat)
  | forwarded (status : Nat) (body : String)
  | json (body : β)
deriving Repr

/-- `(*Server).analyzeWithRCCTHandler`. `decodeRes` is what decoding the request
body answers, `scanRes` what the database answers to `GetUserByID`, and the last
three arguments are those of `Predict`. `none` is a run-time panic (index out of
range). -/
def analyzeWithRCCTHandler (decodeRes : Except GoError RCCTRequest)
    (scanRes : Except GoError models.User) (newValue : Json → Except GoError Json)
    (predictRes : Except GoError (List Json)) (asMap : Json → Except GoError Json) :
    Option (Written RCCTResponse) :=
  match decodeRes with
  | .error err => some (.httpError ("Invalid request format: " ++ err.Error) 400)
  | .ok requestData =>
    let userData : Option models.User :=
      if requestData.UserID > 0 then
        match projectdb.GetUserByID requestData.UserID scanRes with
        | .ok user => some user
        | .error _ => none
      else none
    let instances : List Json :=
      [.object [("text", .string requestData.Input),
        ("parameters", .object [("meta_analysis", .bool requestData.MetaAnalysis),
          ("model_params", .stringMap requestData.ModelParams)])]]
    match vertex.Client.Predict instances newValue predictRes asMap with
    | .error err => some (.httpError ("Analysis failed: " ++ err.Error) 500)
    | .ok predictions =>
      match predictions with
      | [] => none
      | first :: _ =>
        some (.json
          { StructuredAnalysis :=
              .object [("understanding", .object [("key_components", .array [
                  .string "Cognitive analysis using RCCT framework",
                  .string "Integration of user data with AI predictions",
                  .string "Meta-cognitive reflection on analysis process"])]),
                ("analysis", .object [("deep_analysis", .string
                  "Performed structured analysis using integrated RCCT-Vertex pipeline")])],
            Prediction := first,
            MetaObservations := ["Analysis completed using RCCT framework with Vertex AI"],
            UserData := userData })

/-- `(*Server).GetUserWithVertexAnalysis`. `getRes` is what `http.Get` on the
user service answers (status code and body), `decodeRes` what decoding that body
answers, and the last three arguments are those of `Predict`. `none` is a
run-time panic (index out of range). -/
def GetUserWithVertexAnalysis (getRes : Except GoError (Nat × String))
    (decodeRes : Except GoError Json) (newValue : Json → Except GoError Json)
    (predictRes : Except GoError (List Json)) (asMap : Json → Except GoError Json) :
    Option (Written Json) :=
  match getRes with
  | .error err => some (.httpError ("Error getting user: " ++ err.Error) 500)
  | .ok resp =>
    if resp.1 ≠ 200 then some (.forwarded resp.1 resp.2)
    else
      match decodeRes with
      | .error _ => some (.httpError "Error parsing user data" 500)
      | .ok userData =>
        let instances : List Json :=
          [.object [("user_data", userData), ("analysis_type", .string "user_profile")]]
        match vertex.Client.Predict instances newValue predictRes asMap with
        | .error err => some (.httpError ("Error analyzing user: " ++ err.Error) 500)
        | .ok predictions =>
          match predictions with
          | [] => none
          | first :: _ =>
            some (.json (.object [("user_data", userData), ("analysis", first)]))

end api

/-! ## The registry: auxiliary facts -/

namespace interop

theorem step_create (r : Registry) (c : Call) (hc : c.isCreate = true) :
    ∃ v, (step r c).1.handleRegistry = mapStore r.handleRegistry r.nextHandle v ∧
      (step r c).1.nextHandle = (r.nextHandle + 1) % 2 ^ 64 ∧
      (step r c).2 = .handle r.nextHandle := by
  cases c with
  | createConn x => exact ⟨x, rfl, rfl, rfl⟩
  | createResult x => exact ⟨x, rfl, rfl, rfl⟩
  | createUser id u e => exact ⟨.userData ⟨id, u, e⟩, rfl, rfl, rfl⟩
  | free k => simp [Call.isCreate] at hc

theorem step_free_counter (r : Registry) (k : Nat) :
    (step r (.free k)).1.nextHandle = r.nextHandle := by
  simp only [step, FreeHandle]
  cases r.handleRegistry k <;> rfl

theorem step_free_table (r : Registry) (k h : Nat) :
    (step r (.free k)).1.handleRegistry h =
      if h = k then none else r.handleRegistry h := by
  simp only [step, FreeHandle]
  cases hk : r.handleRegistry k with
  | none =>
    by_cases hhk : h = k
    · simp [hhk, hk]
    · simp [hhk]
  | some v => simp [mapDelete]

theorem step_handle_isCreate (r : Registry) (c : Call) (h : Nat)
    (hh : (step r c).2 = .handle h) : c.isCreate = true := by
  cases c with
  | free k => simp [step] at hh
  | _ => rfl

theorem creations_append (a b : List Call) :
    creations (a ++ b) = creations a + creations b := by
  simp [creations]

theorem creations_cons (c : Call) (cs : List Call) :
    creations (c :: cs) = (if c.isCreate then 1 else 0) + creations cs := by
  unfold creations
  by_cases hc : c.isCreate = true
  · simp [hc, List.filter_cons]; omega
  · simp [hc, List.filter_cons]

theorem run_append (r : Registry) (a b : List Call) :
    run r (a ++ b) = run (run r a) b := by
  induction a generalizing r with
  | nil => rfl
  | cons c cs ih => simp [run, ih]

/-- Without wrap-around the counter advances by the number of creations. -/
theorem run_counter (cs : List Call) (r : Registry)
    (hn : r.nextHandle + creations cs < 2 ^ 64) :
    (run r cs).nextHandle = r.nextHandle + creations cs := by
  induction cs generalizing r with
  | nil => simp [run, creations]
  | cons c cs ih =>
    rw [creations_cons] at hn ⊢
    by_cases hc : c.isCreate = true
    · obtain ⟨v, -, hcnt, -⟩ := step_create r c hc
      simp only [hc, if_true] at hn ⊢
      have h1 : (step r c).1.nextHandle = r.nextHandle + 1 := by
        rw [hcnt]; exact Nat.mod_eq_of_lt (by omega)
      simp only [run]
      rw [ih _ (by rw [h1]; omega), h1]; omega
    · cases c with
      | free k =>
        simp only [run]
        have h1 := step_free_counter r k
        simp only [Call.isCreate] at hn ⊢
        rw [ih _ (by rw [h1]; simpa using hn), h1]; simp
      | _ => simp [Call.isCreate] at hc

/-- Without wrap-around the creations of a sequence return consecutive handles. -/
theorem handles_range (cs : List Call) (r : Registry)
    (hn : r.nextHandle + creations cs < 2 ^ 64) :
    handles r cs = List.range' r.nextHandle (creations cs) := by
  induction cs generalizing r with
  | nil => simp [handles, creations]
  | cons c cs ih =>
    rw [creations_cons] at hn ⊢
    by_cases hc : c.isCreate = true
    · obtain ⟨v, -, hcnt, hret⟩ := step_create r c hc
      simp only [hc, if_true] at hn ⊢
      have h1 : (step r c).1.nextHandle = r.nextHandle + 1 := by
        rw [hcnt]; exact Nat.mod_eq_of_lt (by omega)
      simp only [handles, hret]
      rw [ih _ (by rw [h1]; omega), h1, Nat.add_comm 1, List.range'_succ]
    · cases c with
      | free k =>
        have h1 := step_free_counter r k
        simp only [Call.isCreate] at hn ⊢
        simp only [handles, step]
        have h2 := ih (step r (.free k)).1 (by rw [h1]; simpa using hn)
        simp only [step] at h2 h1
        rw [h2, h1]; simp
      | _ => simp [Call.isCreate] at hc

/-- A registered handle stays registered as long as it is not released. -/
theorem run_present (cs : List Call) (r : Registry) (h : Nat)
    (hp : r.handleRegistry h ≠ none) (hf : Call.free h ∉ cs) :
    (run r cs).handleRegistry h ≠ none := by
  induction cs generalizing r with
  | nil => simpa [run] using hp
  | cons c cs ih =>
    simp only [List.mem_cons, not_or] at hf
    simp only [run]
    apply ih _ _ hf.2
    by_cases hc : c.isCreate = true
    · obtain ⟨v, htab, -, -⟩ := step_create r c hc
      rw [htab]; unfold mapStore
      by_cases hk : h = r.nextHandle
      · simp [hk]
      · simpa [hk] using hp
    · cases c with
      | free k =>
        rw [step_free_table]
        have hne : h ≠ k := fun e => hf.1 (by rw [e])
        simpa [hne] using hp
      | _ => simp [Call.isCreate] at hc

/-- Without wrap-around, a handle below the counter that is not registered is
never registered again. -/
theorem run_absent (cs : List Call) (r : Registry) (h : Nat)
    (ha : r.handleRegistry h = none) (hlt : h < r.nextHandle)
    (hn : r.nextHandle + creations cs < 2 ^ 64) :
    (run r cs).handleRegistry h = none := by
  induction cs generalizing r with
  | nil => simpa [run] using ha
  | cons c cs ih =>
    rw [creations_cons] at hn
    simp only [run]
    by_cases hc : c.isCreate = true
    · obtain ⟨v, htab, hcnt, -⟩ := step_create r c hc
      simp only [hc, if_true] at hn
      have h1 : (step r c).1.nextHandle = r.nextHandle + 1 := by
        rw [hcnt]; exact Nat.mod_eq_of_lt (by omega)
      apply ih
      · rw [htab]; unfold mapStore
        have hne : h ≠ r.nextHandle := by omega
        simpa [hne] using ha
      · rw [h1]; omega
      · rw [h1]; omega
    · cases c with
      | free k =>
        have h1 := step_free_counter r k
        simp only [Call.isCreate] at hn
        apply ih
        · rw [step_free_table]; simp [ha]
        · rw [h1]; exact hlt
        · rw [h1]; simpa using hn
      | _ => simp [Call.isCreate] at hc

end interop

/-! ## The registry: claims -/

open interop in
/-- C1. Start from the initial registry and run any call sequence `cs` with fewer
than `2^64 - 1` creations. Let a creation call `c`, made after the calls `pre`,
return the handle `h`.
(1) After any further calls `mid` that contain no `FreeHandle(h)`,
`GetConnectorFromHandle(h)` succeeds, and a `FreeHandle(h)` made there succeeds
(so the first `FreeHandle(h)` after the creation is the first successful one).
(2) After that `FreeHandle(h)` and any further calls `post`,
`GetConnectorFromHandle(h)`, `GetResultFromHandle(h)`, `ExtractUserData(h)` and
`FreeHandle(h)` all return an error. -/
theorem handle_resolves_until_released (cs : List Call)
    (hn : creations cs < 2 ^ 64 - 1) :
    (∀ pre c mid h, pre ++ c :: mid <+: cs →
      (step (run Registry.init pre) c).2 = .handle h → Call.free h ∉ mid →
      (∃ x, GetConnectorFromHandle (run Registry.init (pre ++ c :: mid)) h = .ok x) ∧
      (FreeHandle (run Registry.init (pre ++ c :: mid)) h).2 = none) ∧
    (∀ pre c mid post h, pre ++ c :: (mid ++ Call.free h :: post) <+: cs →
      (step (run Registry.init pre) c).2 = .handle h → Call.free h ∉ mid →
      (∃ e, GetConnectorFromHandle
        (run Registry.init (pre ++ c :: (mid ++ Call.free h :: post))) h = .error e) ∧
      (∃ e, GetResultFromHandle
        (run Registry.init (pre ++ c :: (mid ++ Call.free h :: post))) h = .error e) ∧
      (∃ e, ExtractUserData
        (run Registry.init (pre ++ c :: (mid ++ Call.free h :: post))) h = .error e) ∧
      (∃ e, (FreeHandle
        (run Registry.init (pre ++ c :: (mid ++ Call.free h :: post))) h).2 = some e)) := by
  have live : ∀ pre c mid h, (step (run Registry.init pre) c).2 = .handle h →
      Call.free h ∉ mid →
      (run Registry.init (pre ++ c :: mid)).handleRegistry h ≠ none := by
    intro pre c mid h hh hmid
    have hc := step_handle_isCreate _ _ _ hh
    obtain ⟨v, htab, -, hret⟩ := step_create (run Registry.init pre) c hc
    have hEq : h = (run Registry.init pre).nextHandle := by
      rw [hret] at hh; injection hh with hh; exact hh.symm
    rw [run_append]; simp only [run]
    apply run_present _ _ _ _ hmid
    rw [htab, hEq]; simp [mapStore]
  refine ⟨?_, ?_⟩
  · intro pre c mid h _ hh hmid
    have hp := live pre c mid h hh hmid
    cases hv : (run Registry.init (pre ++ c :: mid)).handleRegistry h with
    | none => exact absurd hv hp
    | some v => exact ⟨⟨v, by simp [GetConnectorFromHandle, hv]⟩, by simp [FreeHandle, hv]⟩
  · intro pre c mid post h hpre hh hmid
    have hc := step_handle_isCreate _ _ _ hh
    obtain ⟨v, -, -, hret⟩ := step_create (run Registry.init pre) c hc
    have hEq : h = (run Registry.init pre).nextHandle := by
      rw [hret] at hh; injection hh with hh; exact hh.symm
    -- the creation count of the prefix is bounded by that of the whole sequence
    obtain ⟨rest, hrest⟩ := hpre
    have hcount : creations pre + 1 + creations mid + creations post < 2 ^ 64 - 1 := by
      have := hn
      rw [← hrest] at this
      have hf : (Call.free h).isCreate = false := rfl
      simp only [creations_append, creations_cons] at this
      rw [hc, hf] at this
      simp only [if_true, Bool.false_eq_true, if_false] at this
      omega
    have hinit : Registry.init.nextHandle = 1 := rfl
    have hcntPre : (run Registry.init pre).nextHandle = 1 + creations pre := by
      rw [run_counter _ _ (by rw [hinit]; omega), hinit]
    -- the state in which `FreeHandle(h)` is made
    have hcnt1 : (run Registry.init (pre ++ c :: mid)).nextHandle
        = 1 + (creations pre + 1 + creations mid) := by
      rw [run_counter _ _ (by
        rw [hinit]; simp only [creations_append, creations_cons, hc, if_true]; omega), hinit]
      simp only [creations_append, creations_cons, hc, if_true]; omega
    have habs : (run Registry.init (pre ++ c :: (mid ++ Call.free h :: post))).handleRegistry h
        = none := by
      have e : pre ++ c :: (mid ++ Call.free h :: post)
          = (pre ++ c :: mid) ++ Call.free h :: post := by simp
      rw [e, run_append]; simp only [run]
      apply run_absent
      · rw [step_free_table]; simp
      · rw [step_free_counter, hcnt1, hEq, hcntPre]; omega
      · rw [step_free_counter, hcnt1]; omega
    exact ⟨⟨"invalid connector handle: " ++ toString h,
        by simp only [GetConnectorFromHandle, habs]⟩,
      ⟨"invalid result handle: " ++ toString h, by simp only [GetResultFromHandle, habs]⟩,
      ⟨"invalid user handle: " ++ toString h, by simp only [ExtractUserData, habs]⟩,
      ⟨"invalid handle: " ++ toString h, by simp only [FreeHandle, habs]⟩⟩

open interop in
/-- C1, at a concrete run: handle 1 is created, resolves while handle 2 is
created, is released, and fails to resolve after a further creation. -/
theorem handle_resolves_until_released_witness :
    creations [.createConn (.obj 7), .createUser 1 "a" "b", .free 1, .createResult .nil]
      < 2 ^ 64 - 1 ∧
    ((∃ x, GetConnectorFromHandle
        (run Registry.init [.createConn (.obj 7), .createUser 1 "a" "b"]) 1 = .ok x) ∧
      (FreeHandle (run Registry.init [.createConn (.obj 7), .createUser 1 "a" "b"]) 1).2
        = none) ∧
    (∃ e, GetConnectorFromHandle (run Registry.init
        [.createConn (.obj 7), .createUser 1 "a" "b", .free 1, .createResult .nil]) 1
      = .error e) :=
  ⟨by decide,
    (handle_resolves_until_released
      [.createConn (.obj 7), .createUser 1 "a" "b", .free 1, .createResult .nil]
      (by decide)).1 [] (.createConn (.obj 7)) [.createUser 1 "a" "b"] 1
      ⟨[.free 1, .createResult .nil], rfl⟩ rfl (by decide),
    ((handle_resolves_until_released
      [.createConn (.obj 7), .createUser 1 "a" "b", .free 1, .createResult .nil]
      (by decide)).2 [] (.createConn (.obj 7)) [.createUser 1 "a" "b"] [.createResult .nil] 1
      ⟨[], rfl⟩ rfl (by decide)).1⟩

open interop in
/-- C2. Start from the initial registry (counter 1) and run any interleaving of
`CreateConnHandle`, `CreateResultHandle`, `CreateUserHandle` and `FreeHandle`
calls with fewer than `2^64 - 1` creations. The handles returned by the creation
calls are, in call order, `1, 2, ..., n`: the creation number `k + 1` returns
`k + 1`. Hence every returned handle is non-zero, the returned handles are
strictly increasing, and they are pairwise distinct. -/
theorem created_handles_count_up (cs : List Call) (hn : creations cs < 2 ^ 64 - 1) :
    handles Registry.init cs = List.range' 1 (creations cs) ∧
    (∀ k (hk : k < (handles Registry.init cs).length),
      (handles Registry.init cs).get ⟨k, hk⟩ = k + 1) ∧
    (∀ h ∈ handles Registry.init cs, h ≠ 0) ∧
    (handles Registry.init cs).Pairwise (fun a b => a < b) ∧
    (handles Registry.init cs).Nodup := by
  have hr : handles Registry.init cs = List.range' 1 (creations cs) :=
    handles_range cs Registry.init (by
      have : Registry.init.nextHandle = 1 := rfl
      rw [this]; omega)
  refine ⟨hr, ?_, ?_, ?_, ?_⟩
  · intro k hk
    rw [List.get_of_eq hr]; simp; omega
  · intro h hh
    rw [hr, List.mem_range'_1] at hh; omega
  · rw [hr]
    exact List.pairwise_lt_range' 1 (creations cs)
  · rw [hr]
    exact List.nodup_range' 1 (creations cs)

open interop in
/-- C2, at a concrete run with a release between the creations. -/
theorem created_handles_count_up_witness :
    creations [.createUser 5 "u" "e", .free 1, .createConn .nil, .createResult (.obj 3)]
      < 2 ^ 64 - 1 ∧
    handles Registry.init
      [.createUser 5 "u" "e", .free 1, .createConn .nil, .createResult (.obj 3)]
      = List.range' 1
        (creations [.createUser 5 "u" "e", .free 1, .createConn .nil, .createResult (.obj 3)]) :=
  ⟨by decide,
    (created_handles_count_up
      [.createUser 5 "u" "e", .free 1, .createConn .nil, .createResult (.obj 3)]
      (by decide)).1⟩

open interop in
/-- C3. In every registry state and for every resource `x`, `CreateConnHandle(x)`
returns a handle `h` for which, in the resulting state, `GetConnectorFromHandle(h)`
and `GetResultFromHandle(h)` succeed and return `x`, while every other handle has
the table entry, and so the answer of each of the three lookups, it had before.
The same holds of `CreateResultHandle(x)`. -/
theorem create_then_resolve (r : Registry) (x : Value) :
    (GetConnectorFromHandle (CreateConnHandle r x).1 (CreateConnHandle r x).2 = .ok x ∧
      GetResultFromHandle (CreateConnHandle r x).1 (CreateConnHandle r x).2 = .ok x ∧
      ∀ k, k ≠ (CreateConnHandle r x).2 →
        (CreateConnHandle r x).1.handleRegistry k = r.handleRegistry k ∧
        GetConnectorFromHandle (CreateConnHandle r x).1 k = GetConnectorFromHandle r k ∧
        GetResultFromHandle (CreateConnHandle r x).1 k = GetResultFromHandle r k ∧
        ExtractUserData (CreateConnHandle r x).1 k = ExtractUserData r k) ∧
    (GetConnectorFromHandle (CreateResultHandle r x).1 (CreateResultHandle r x).2 = .ok x ∧
      GetResultFromHandle (CreateResultHandle r x).1 (CreateResultHandle r x).2 = .ok x ∧
      ∀ k, k ≠ (CreateResultHandle r x).2 →
        (CreateResultHandle r x).1.handleRegistry k = r.handleRegistry k ∧
        GetConnectorFromHandle (CreateResultHandle r x).1 k = GetConnectorFromHandle r k ∧
        GetResultFromHandle (CreateResultHandle r x).1 k = GetResultFromHandle r k ∧
        ExtractUserData (CreateResultHandle r x).1 k = ExtractUserData r k) := by
  refine ⟨⟨?_, ?_, ?_⟩, ⟨?_, ?_, ?_⟩⟩
  · simp [GetConnectorFromHandle, CreateConnHandle, mapStore]
  · simp [GetResultFromHandle, CreateConnHandle, mapStore]
  · intro k hk
    have hk2 : k ≠ r.nextHandle := hk
    have e : (CreateConnHandle r x).1.handleRegistry k = r.handleRegistry k := by
      simp [CreateConnHandle, mapStore, hk2]
    exact ⟨e, by simp only [GetConnectorFromHandle, e],
      by simp only [GetResultFromHandle, e], by simp only [ExtractUserData, e]⟩
  · simp [GetConnectorFromHandle, CreateResultHandle, mapStore]
  · simp [GetResultFromHandle, CreateResultHandle, mapStore]
  · intro k hk
    have hk2 : k ≠ r.nextHandle := hk
    have e : (CreateResultHandle r x).1.handleRegistry k = r.handleRegistry k := by
      simp [CreateResultHandle, mapStore, hk2]
    exact ⟨e, by simp only [GetConnectorFromHandle, e],
      by simp only [GetResultFromHandle, e], by simp only [ExtractUserData, e]⟩

open interop in
/-- C4. In every registry state and for every handle `h`, `FreeHandle(h)` returns
an error exactly when `h` is not a key of the table. When it succeeds, the
resulting table has no entry for `h`, every other entry is as before, and the
counter is unchanged. When it fails, table and counter are unchanged. -/
theorem free_handle_contract (r : Registry) (h : Nat) :
    ((∃ e, (FreeHandle r h).2 = some e) ↔ r.handleRegistry h = none) ∧
    ((FreeHandle r h).2 = none →
      (FreeHandle r h).1.handleRegistry h = none ∧
      (∀ k, k ≠ h → (FreeHandle r h).1.handleRegistry k = r.handleRegistry k) ∧
      (FreeHandle r h).1.nextHandle = r.nextHandle) ∧
    ((∃ e, (FreeHandle r h).2 = some e) →
      (FreeHandle r h).1.handleRegistry = r.handleRegistry ∧
      (FreeHandle r h).1.nextHandle = r.nextHandle) := by
  cases hv : r.handleRegistry h with
  | none => simp [FreeHandle, hv]
  | some v =>
    refine ⟨by simp [FreeHandle, hv], ?_, by simp [FreeHandle, hv]⟩
    intro _
    refine ⟨by simp [FreeHandle, hv, mapDelete], ?_, by simp [FreeHandle, hv]⟩
    intro k hk
    simp [FreeHandle, hv, mapDelete, hk]

/-! ## The connector: auxiliary facts -/

namespace db

/-- One call from a state in which the handle is set exactly when the open flag
is, and the connection object is set whenever the flag is, returns (does not
panic) and leads to such a state again. -/
theorem step_preserves (c : DBConnector) (call : DBCall)
    (hinv : c.connHandle ≠ 0 ↔ c.isConnected = true)
    (hdb : c.isConnected = true → c.db ≠ none) :
    ∃ c1 ev, c.step call = some (c1, ev) ∧
      (c1.connHandle ≠ 0 ↔ c1.isConnected = true) ∧
      (c1.isConnected = true → c1.db ≠ none) := by
  obtain ⟨cs, conn, d, hd⟩ := c
  cases conn with
  | false =>
    have h0 : hd = 0 := by simpa using hinv
    subst h0
    cases call with
    | connect openRes pingRes =>
      cases openRes with
      | error e => simp [DBConnector.step, DBConnector.Connect]
      | ok d1 =>
        cases pingRes with
        | some e => simp [DBConnector.step, DBConnector.Connect]
        | none => simp [DBConnector.step, DBConnector.Connect, interop.CreateConnHandle]
    | close closeRes => simp [DBConnector.step, DBConnector.Close]
    | query q args queryRes => simp [DBConnector.step, DBConnector.Query]
  | true =>
    have h0 : hd ≠ 0 := by simpa using hinv
    cases d with
    | none => simp at hdb
    | some d1 =>
      cases call with
      | connect openRes pingRes => simp [DBConnector.step, DBConnector.Connect, h0]
      | close closeRes => simp [DBConnector.step, DBConnector.Close, h0]
      | query q args queryRes =>
        cases queryRes with
        | error e => simp [DBConnector.step, DBConnector.Query, h0]
        | ok rows => simp [DBConnector.step, DBConnector.Query, h0]

/-- Every call sequence from such a state runs to the end, into such a state. -/
theorem runCalls_preserves (calls : List DBCall) (c : DBConnector)
    (hinv : c.connHandle ≠ 0 ↔ c.isConnected = true)
    (hdb : c.isConnected = true → c.db ≠ none) :
    ∃ c1, c.runCalls calls = some c1 ∧
      (c1.connHandle ≠ 0 ↔ c1.isConnected = true) ∧
      (c1.isConnected = true → c1.db ≠ none) := by
  induction calls generalizing c with
  | nil => exact ⟨c, rfl, hinv, hdb⟩
  | cons call calls ih =>
    obtain ⟨c1, ev, hstep, h1, h2⟩ := step_preserves c call hinv hdb
    obtain ⟨c2, hrun, h3, h4⟩ := ih c1 h1 h2
    exact ⟨c2, by simp [DBConnector.runCalls, hstep, hrun], h3, h4⟩

theorem reachable_inv (c : DBConnector) (hr : Reachable c) :
    (c.connHandle ≠ 0 ↔ c.isConnected = true) ∧ (c.isConnected = true → c.db ≠ none) := by
  obtain ⟨cs, calls, hrun⟩ := hr
  obtain ⟨c1, hrun1, h1, h2⟩ :=
    runCalls_preserves calls (NewDBConnector cs) (by simp [NewDBConnector])
      (by simp [NewDBConnector])
  rw [hrun] at hrun1
  injection hrun1 with e
  subst e
  exact ⟨h1, h2⟩

/-- Whenever `Close` returns, the open flag is false afterwards. -/
theorem close_clears_flag (c c1 : DBConnector) (r ret : Option String) (ev : List Event)
    (h : c.Close r = some (c1, ret, ev)) : c1.isConnected = false := by
  obtain ⟨cs, conn, d, hd⟩ := c
  cases conn with
  | false =>
    simp only [DBConnector.Close, Bool.not_false, if_true] at h
    injection h with h
    injection h with e1 _
    rw [← e1]
  | true =>
    cases d with
    | none => by_cases h0 : hd = 0 <;> simp [DBConnector.Close, h0] at h
    | some d1 =>
      by_cases h0 : hd = 0
      · simp [DBConnector.Close, h0] at h
        rw [← h.1]
      · simp [DBConnector.Close, h0] at h
        rw [← h.1]

end db

/-! ## The connector: claims -/

open db in
/-- C5. From `NewDBConnector`, every finite sequence of `Connect`, `Close` and
`Query` calls, under any answers of the driver's open, ping, query and close,
runs to the end, and in the state it reaches `connHandle != 0` holds if and only
if `isConnected` is true. -/
theorem handle_set_iff_connected (connectionString : String) (calls : List DBCall) :
    ∃ c, (NewDBConnector connectionString).runCalls calls = some c ∧
      (c.connHandle ≠ 0 ↔ c.isConnected = true) := by
  obtain ⟨c, hrun, h, -⟩ :=
    runCalls_preserves calls (NewDBConnector connectionString) (by simp [NewDBConnector])
      (by simp [NewDBConnector])
  exact ⟨c, hrun, h⟩

open db in
/-- C6. For every reachable connector that is not connected: if the driver's open
fails, or it succeeds and the ping fails, then `Connect` returns an error, the
connector afterwards has `isConnected` false and `connHandle` 0, and
`CreateConnHandle` is not among the calls made. -/
theorem failed_connect_stays_disconnected (c : DBConnector) (hr : Reachable c)
    (hd : c.isConnected = false) (openRes : Except String Nat) (pingRes : Option String)
    (hfail : (∃ e, openRes = .error e) ∨ (∃ e, pingRes = some e)) :
    (∃ e, (c.Connect openRes pingRes).2.1 = some e) ∧
    (c.Connect openRes pingRes).1.isConnected = false ∧
    (c.Connect openRes pingRes).1.connHandle = 0 ∧
    Event.createConnHandle ∉ (c.Connect openRes pingRes).2.2 := by
  have h0 : c.connHandle = 0 := by
    have := (reachable_inv c hr).1
    rw [hd] at this
    simpa using this
  cases openRes with
  | error e => simp [DBConnector.Connect, hd, h0]
  | ok d =>
    cases pingRes with
    | some e => simp [DBConnector.Connect, hd, h0]
    | none =>
      rcases hfail with ⟨e, he⟩ | ⟨e, he⟩
      · cases he
      · cases he

open db in
/-- C6, at a fresh connector whose open succeeds and whose ping fails. -/
theorem failed_connect_stays_disconnected_witness :
    Reachable (NewDBConnector "dsn") ∧ (NewDBConnector "dsn").isConnected = false ∧
    ((∃ e, ((NewDBConnector "dsn").Connect (.ok 4) (some "timeout")).2.1 = some e) ∧
      ((NewDBConnector "dsn").Connect (.ok 4) (some "timeout")).1.isConnected = false ∧
      ((NewDBConnector "dsn").Connect (.ok 4) (some "timeout")).1.connHandle = 0 ∧
      Event.createConnHandle ∉
        ((NewDBConnector "dsn").Connect (.ok 4) (some "timeout")).2.2) :=
  ⟨⟨"dsn", [], rfl⟩, rfl,
    failed_connect_stays_disconnected (NewDBConnector "dsn") ⟨"dsn", [], rfl⟩ rfl
      (.ok 4) (some "timeout") (Or.inr ⟨"timeout", rfl⟩)⟩

open db in
/-- C7. For every reachable connector that is connected, `Close` returns exactly
what the driver's close answers (nil or its error), whichever that is; the
connector afterwards has `isConnected` false and `connHandle` 0; and the calls
made are `FreeHandle` with the (non-zero) handle the connector held, then the
driver's close: that handle is passed to `FreeHandle` exactly once and no other
handle is. -/
theorem close_connected (c : DBConnector) (hr : Reachable c)
    (hc : c.isConnected = true) (closeRes : Option String) :
    ∃ c1 d ev, c.db = some d ∧ c.connHandle ≠ 0 ∧
      c.Close closeRes = some (c1, closeRes, ev) ∧
      c1.isConnected = false ∧ c1.connHandle = 0 ∧
      ev = [.freeHandle c.connHandle, .dbClose d] ∧
      ev.count (.freeHandle c.connHandle) = 1 ∧
      (∀ k, Event.freeHandle k ∈ ev → k = c.connHandle) := by
  obtain ⟨hinv, hdb⟩ := reachable_inv c hr
  have h0 : c.connHandle ≠ 0 := hinv.mpr hc
  cases hd : c.db with
  | none => exact absurd hd (hdb hc)
  | some d =>
    refine ⟨{ c with connHandle := 0, isConnected := false }, d,
      [.freeHandle c.connHandle, .dbClose d], rfl, h0, ?_, rfl, rfl, rfl, ?_, ?_⟩
    · simp [DBConnector.Close, hc, h0, hd]
    · simp [List.count_cons]
    · intro k hk
      simpa using hk

open db in
/-- C7, at the connector a successful `Connect` produces, with a failing driver
close. -/
theorem close_connected_witness :
    Reachable ⟨"dsn", true, some 4, 1⟩ ∧
    ∃ c1 d ev, (⟨"dsn", true, some 4, 1⟩ : DBConnector).db = some d ∧
      (⟨"dsn", true, some 4, 1⟩ : DBConnector).connHandle ≠ 0 ∧
      (⟨"dsn", true, some 4, 1⟩ : DBConnector).Close (some "broken pipe")
        = some (c1, some "broken pipe", ev) ∧
      c1.isConnected = false ∧ c1.connHandle = 0 ∧
      ev = [.freeHandle (⟨"dsn", true, some 4, 1⟩ : DBConnector).connHandle, .dbClose d] ∧
      ev.count (.freeHandle (⟨"dsn", true, some 4, 1⟩ : DBConnector).connHandle) = 1 ∧
      (∀ k, Event.freeHandle k ∈ ev → k = (⟨"dsn", true, some 4, 1⟩ : DBConnector).connHandle) :=
  ⟨⟨"dsn", [.connect (.ok 4) none], rfl⟩,
    close_connected ⟨"dsn", true, some 4, 1⟩ ⟨"dsn", [.connect (.ok 4) none], rfl⟩ rfl
      (some "broken pipe")⟩

open db in
/-- C8. For every connector state and every `Close` call that returns, a second
`Close` right after it returns nil, makes no call at all (no driver close, no
`FreeHandle`) and leaves the connector as the first call left it, whatever the
driver would answer. In particular, when the connector is not connected, the
first call itself returns nil, makes no call and leaves the connector as it was. -/
theorem close_twice (c c1 : DBConnector) (r1 r2 ret1 : Option String) (ev1 : List Event)
    (h1 : c.Close r1 = some (c1, ret1, ev1)) :
    c1.Close r2 = some (c1, none, []) ∧
    (c.isConnected = false → c1 = c ∧ ret1 = none ∧ ev1 = []) := by
  obtain ⟨cs, conn, d, hd⟩ := c
  cases conn with
  | false =>
    simp only [DBConnector.Close, Bool.not_false, if_true] at h1
    injection h1 with h1
    injection h1 with e1 h1
    injection h1 with e2 e3
    subst e1 e2 e3
    simp [DBConnector.Close]
  | true =>
    cases d with
    | none =>
      by_cases h0 : hd = 0 <;> simp [DBConnector.Close, h0] at h1
    | some d1 =>
      by_cases h0 : hd = 0
      · simp only [DBConnector.Close, h0] at h1
        simp at h1
        obtain ⟨e1, -, -⟩ := h1
        subst e1
        simp [DBConnector.Close]
      · simp only [DBConnector.Close, h0] at h1
        simp [h0] at h1
        obtain ⟨e1, -, -⟩ := h1
        subst e1
        simp [DBConnector.Close]

open db in
/-- C8, at a connected connector whose driver close fails the first time. -/
theorem close_twice_witness :
    (⟨"dsn", true, some 4, 1⟩ : DBConnector).Close (some "broken pipe")
      = some (⟨"dsn", false, some 4, 0⟩, some "broken pipe", [.freeHandle 1, .dbClose 4]) ∧
    ((⟨"dsn", false, some 4, 0⟩ : DBConnector).Close (some "again")
      = some (⟨"dsn", false, some 4, 0⟩, none, []) ∧
    ((⟨"dsn", true, some 4, 1⟩ : DBConnector).isConnected = false →
      (⟨"dsn", false, some 4, 0⟩ : DBConnector) = ⟨"dsn", true, some 4, 1⟩ ∧
      some "broken pipe" = none ∧ [Event.freeHandle 1, Event.dbClose 4] = [])) :=
  ⟨rfl, close_twice ⟨"dsn", true, some 4, 1⟩ ⟨"dsn", false, some 4, 0⟩
    (some "broken pipe") (some "again") (some "broken pipe") [.freeHandle 1, .dbClose 4] rfl⟩

open db in
/-- C9. For every connector state with `isConnected` true, `Connect` returns nil,
makes no call at all (no open, no ping, no `CreateConnHandle`) and leaves every
field of the connector unchanged, whatever the driver would answer. -/
theorem connect_when_connected (c : DBConnector) (hc : c.isConnected = true)
    (openRes : Except String Nat) (pingRes : Option String) :
    c.Connect openRes pingRes = (c, none, []) := by
  simp [DBConnector.Connect, hc]

open db in
/-- C9, at the connector a successful `Connect` produces. -/
theorem connect_when_connected_witness :
    (⟨"dsn", true, some 4, 1⟩ : DBConnector).isConnected = true ∧
    (⟨"dsn", true, some 4, 1⟩ : DBConnector).Connect (.ok 9) none
      = (⟨"dsn", true, some 4, 1⟩, none, []) :=
  ⟨rfl, connect_when_connected ⟨"dsn", true, some 4, 1⟩ rfl (.ok 9) none⟩

open db in
/-- C10. For every reachable connector state, SQL text, argument list and answer
of the driver, `Query` returns, leaving the connector (so its open flag and its
handle) unchanged. It returns an error if and only if the connector is not
connected or the driver's query fails. When the connector is not connected no
call is made and no `Result` is returned. In particular a `Query` made right
after a `Close` returns an error. -/
theorem query_contract (c : DBConnector) (hr : Reachable c) (query : String)
    (args : List SqlValue) (queryRes : Except String Rows) :
    (∃ ret ev, c.Query query args queryRes = some (c, ret, ev) ∧
      ((∃ e, ret = .error e) ↔ (c.isConnected = false ∨ ∃ e, queryRes = .error e)) ∧
      (c.isConnected = false → ev = [] ∧ ∃ e, ret = .error e)) ∧
    (∀ closeRes c1 ret1 ev1, c.Close closeRes = some (c1, ret1, ev1) →
      ∃ e, c1.Query query args queryRes = some (c1, .error e, [])) := by
  obtain ⟨hinv, hdb⟩ := reachable_inv c hr
  refine ⟨?_, ?_⟩
  · cases hconn : c.isConnected with
    | false =>
      exact ⟨.error "not connected to database", [],
        by simp [DBConnector.Query, hconn], by simp, by simp⟩
    | true =>
      cases hd : c.db with
      | none => exact absurd hd (hdb hconn)
      | some d =>
        cases queryRes with
        | error e =>
          exact ⟨.error ("query failed: " ++ e), [.dbQuery d query args],
            by simp [DBConnector.Query, hconn, hd], by simp, by simp⟩
        | ok rows =>
          exact ⟨.ok (NewResult rows), [.dbQuery d query args],
            by simp [DBConnector.Query, hconn, hd], by simp, by simp⟩
  · intro closeRes c1 ret1 ev1 hclose
    have hoff : c1.isConnected = false := close_clears_flag c c1 closeRes ret1 ev1 hclose
    exact ⟨"not connected to database", by simp [DBConnector.Query, hoff]⟩

open db in
/-- C10, at a connected connector whose driver rejects the statement. -/
theorem query_contract_witness :
    Reachable ⟨"dsn", true, some 4, 1⟩ ∧
    ((∃ ret ev, (⟨"dsn", true, some 4, 1⟩ : DBConnector).Query "SELEC 1" [] (.error "syntax")
        = some (⟨"dsn", true, some 4, 1⟩, ret, ev) ∧
      ((∃ e, ret = .error e) ↔
        ((⟨"dsn", true, some 4, 1⟩ : DBConnector).isConnected = false ∨
          ∃ e, (Except.error "syntax" : Except String Rows) = .error e)) ∧
      ((⟨"dsn", true, some 4, 1⟩ : DBConnector).isConnected = false →
        ev = [] ∧ ∃ e, ret = .error e)) ∧
    (∀ closeRes c1 ret1 ev1,
      (⟨"dsn", true, some 4, 1⟩ : DBConnector).Close closeRes = some (c1, ret1, ev1) →
      ∃ e, c1.Query "SELEC 1" [] (.error "syntax") = some (c1, .error e, []))) :=
  ⟨⟨"dsn", [.connect (.ok 4) none], rfl⟩,
    query_contract ⟨"dsn", true, some 4, 1⟩ ⟨"dsn", [.connect (.ok 4) none], rfl⟩
      "SELEC 1" [] (.error "syntax")⟩

/-! ## The materialized result: auxiliary facts -/

namespace db

theorem stringValues_scanInto_length (n : Nat) (vals : List SqlValue) :
    (stringValues (scanInto n vals)).length = n := by
  simp [stringValues, scanInto]

/-- The loop appends, in cursor order, one converted row per successful `Scan`. -/
theorem cacheRows_eq (n : Nat) (pending : List (Except String (List SqlValue)))
    (acc : List (List String)) :
    cacheRows n pending acc =
      acc ++ (Rows.scanned ⟨.ok [], pending, false⟩).map
        (fun vals => stringValues (scanInto n vals)) := by
  induction pending generalizing acc with
  | nil => simp [cacheRows, Rows.scanned]
  | cons row rest ih =>
    cases row with
    | error e =>
      simp only [cacheRows]
      rw [ih]
      simp [Rows.scanned]
    | ok vals =>
      simp only [cacheRows]
      rw [ih]
      simp [Rows.scanned]

theorem newResult_ok (rows : Rows) (cols : List String) (h : rows.columnsRes = .ok cols) :
    NewResult rows =
      { rows := some { rows with pending := [], closed := true },
        resultData := rows.scanned.map (fun vals => stringValues (scanInto cols.length vals)),
        columns := cols,
        closed := false } := by
  simp only [NewResult, Result.cacheResults, h, cacheRows_eq]
  simp [Rows.scanned]

theorem newResult_error (rows : Rows) (e : String) (h : rows.columnsRes = .error e) :
    NewResult rows = { rows := some rows, resultData := [], columns := [], closed := false } := by
  simp only [NewResult, Result.cacheResults, h]

/-- Every row of the snapshot `NewResult` builds has one cell per column. -/
theorem newResult_shape (rows : Rows) :
    ∀ cells ∈ (NewResult rows).resultData, cells.length = (NewResult rows).columns.length := by
  cases h : rows.columnsRes with
  | error e => simp [newResult_error rows e h]
  | ok cols =>
    rw [newResult_ok rows cols h]
    intro cells hc
    simp only [List.mem_map] at hc
    obtain ⟨vals, -, rfl⟩ := hc
    exact stringValues_scanInto_length _ _

/-- On a snapshot whose rows all have one cell per column, an in-range read
returns the stored cell. -/
theorem getValue_in_range (r : Result)
    (hshape : ∀ cells ∈ r.resultData, cells.length = r.columns.length)
    (row column : Int) (h0 : 0 ≤ row) (h1 : row < r.resultData.length)
    (h2 : 0 ≤ column) (h3 : column < r.columns.length) :
    ∃ cells text, r.resultData.get? row.toNat = some cells ∧
      cells.get? column.toNat = some text ∧
      r.GetValue row column = some (.ok text) := by
  have hr : row.toNat < r.resultData.length := by omega
  have hmem : r.resultData.get ⟨row.toNat, hr⟩ ∈ r.resultData := List.get_mem _ _ _
  have hlen := hshape _ hmem
  have hc : column.toNat < (r.resultData.get ⟨row.toNat, hr⟩).length := by omega
  refine ⟨r.resultData.get ⟨row.toNat, hr⟩,
    (r.resultData.get ⟨row.toNat, hr⟩).get ⟨column.toNat, hc⟩,
    List.get?_eq_get hr, List.get?_eq_get hc, ?_⟩
  have n1 : ¬ (row < 0 ∨ row ≥ r.resultData.length) := by omega
  have n2 : ¬ (column < 0 ∨ column ≥ r.columns.length) := by omega
  simp only [Result.GetValue, n1, n2, if_false, List.get?_eq_get hr, List.get?_eq_get hc]

/-- An out-of-range read returns an error. -/
theorem getValue_out_of_range (r : Result) (row column : Int)
    (h : row < 0 ∨ row ≥ r.resultData.length ∨ column < 0 ∨ column ≥ r.columns.length) :
    ∃ e, r.GetValue row column = some (.error e) := by
  by_cases n1 : row < 0 ∨ row ≥ r.resultData.length
  · exact ⟨"row index out of bounds", by simp only [Result.GetValue, n1, if_true]⟩
  · have n2 : column < 0 ∨ column ≥ r.columns.length := by omega
    exact ⟨"column index out of bounds", by simp only [Result.GetValue, n1, n2, if_true, if_false]⟩

/-- When every `Scan` succeeds, no row of the cursor is left out. -/
theorem scanned_length_of_all_ok (pending : List (Except String (List SqlValue)))
    (columnsRes : Except String (List String)) (closed : Bool)
    (hall : ∀ row ∈ pending, ∃ vals, row = .ok vals) :
    (Rows.scanned ⟨columnsRes, pending, closed⟩).length = pending.length := by
  induction pending with
  | nil => rfl
  | cons row rest ih =>
    obtain ⟨vals, rfl⟩ := hall row (List.mem_cons_self _ _)
    have := ih (fun r hr => hall r (List.mem_cons_of_mem _ hr))
    simp only [Rows.scanned, List.filterMap_cons, List.length_cons] at this ⊢
    rw [this]

end db

/-! ## The materialized result: claims -/

open db in
/-- C11. For the `Result` that `NewResult` builds from any cursor and for all
integers `row` and `column`: `GetValue(row, column)` returns an error if and only
if `row < 0`, `row >= GetRowCount()`, `column < 0` or `column >= GetColumnCount()`;
for every in-range pair it returns, without error, the text stored at position
`(row, column)` of the snapshot. -/
theorem getValue_contract (rows : Rows) (row column : Int) :
    ((∃ e, (NewResult rows).GetValue row column = some (.error e)) ↔
      (row < 0 ∨ row ≥ (NewResult rows).GetRowCount ∨
        column < 0 ∨ column ≥ (NewResult rows).GetColumnCount)) ∧
    (0 ≤ row → row < (NewResult rows).GetRowCount →
      0 ≤ column → column < (NewResult rows).GetColumnCount →
      ∃ cells text, (NewResult rows).resultData.get? row.toNat = some cells ∧
        cells.get? column.toNat = some text ∧
        (NewResult rows).GetValue row column = some (.ok text)) := by
  refine ⟨⟨?_, ?_⟩, ?_⟩
  · rintro ⟨e, he⟩
    by_contra hin
    have hin2 : 0 ≤ row ∧ row < (NewResult rows).resultData.length ∧
        0 ≤ column ∧ column < (NewResult rows).columns.length := by
      simp only [Result.GetRowCount, Result.GetColumnCount] at hin
      omega
    obtain ⟨cells, text, -, -, hv⟩ :=
      getValue_in_range (NewResult rows) (newResult_shape rows) row column
        hin2.1 hin2.2.1 hin2.2.2.1 hin2.2.2.2
    rw [hv] at he
    simp at he
  · intro h
    exact getValue_out_of_range (NewResult rows) row column h
  · intro h0 h1 h2 h3
    exact getValue_in_range (NewResult rows) (newResult_shape rows) row column h0 h1 h2 h3

open db in
/-- C11, at a cursor with two columns and two rows: the last cell is read, and a
column index equal to the column count is refused. -/
theorem getValue_contract_witness :
    (NewResult ⟨.ok ["a", "b"], [.ok [.int64 1, .string "p"], .ok [.null, .bool true]],
        false⟩).GetValue 1 1 = some (.ok "true") ∧
    ((∃ e, (NewResult ⟨.ok ["a", "b"],
          [.ok [.int64 1, .string "p"], .ok [.null, .bool true]], false⟩).GetValue 1 2
        = some (.error e)) ↔
      ((1 : Int) < 0 ∨
        (1 : Int) ≥ (NewResult ⟨.ok ["a", "b"],
          [.ok [.int64 1, .string "p"], .ok [.null, .bool true]], false⟩).GetRowCount ∨
        (2 : Int) < 0 ∨
        (2 : Int) ≥ (NewResult ⟨.ok ["a", "b"],
          [.ok [.int64 1, .string "p"], .ok [.null, .bool true]], false⟩).GetColumnCount)) :=
  ⟨by decide,
    (getValue_contract ⟨.ok ["a", "b"],
      [.ok [.int64 1, .string "p"], .ok [.null, .bool true]], false⟩ 1 2).1⟩

open db in
/-- C12 fails as stated: a cursor with column `x` that yields two rows, the first
of which fails to scan, gives a `Result` with one row, not two; the row that
failed to scan is omitted. -/
theorem newResult_omits_unscannable_row :
    (⟨.ok ["x"], [.error "bad value", .ok [.int64 1]], false⟩ : Rows).pending.length = 2 ∧
    (NewResult ⟨.ok ["x"], [.error "bad value", .ok [.int64 1]], false⟩).GetRowCount = 1 ∧
    (NewResult ⟨.ok ["x"], [.error "bad value", .ok [.int64 1]], false⟩).GetValue 1 0
      = some (.error "row index out of bounds") := by
  decide

open db in
/-- C12, amended. For every cursor handed to `NewResult`:
(1) if its column lookup succeeds with the names `cols`, the `Result` has
`GetColumnCount() = len(cols)`, `GetColumnNames() = cols`, and `GetRowCount()`
equal to the number of rows whose `Scan` succeeds; cell `(i, j)` is the text form
of value `j` of the `i`-th successfully scanned row (cursor order kept), where a
null, or a slot the scan left unwritten, gives the empty string; and when every
`Scan` succeeds `GetRowCount()` is the number of rows the cursor yields;
(2) if its column lookup fails, the `Result` has no column and no row. -/
theorem newResult_snapshot (rows : Rows) :
    (∀ cols, rows.columnsRes = .ok cols →
      (NewResult rows).GetColumnCount = cols.length ∧
      (NewResult rows).GetColumnNames = cols ∧
      (NewResult rows).GetRowCount = rows.scanned.length ∧
      (∀ (i j : Nat) (vals : List SqlValue), rows.scanned.get? i = some vals →
        j < cols.length →
        (NewResult rows).GetValue i j =
          some (.ok (if vals.getD j .null = .null then "" else sprintfV (vals.getD j .null)))) ∧
      ((∀ row ∈ rows.pending, ∃ vals, row = .ok vals) →
        (NewResult rows).GetRowCount = rows.pending.length)) ∧
    (∀ e, rows.columnsRes = .error e →
      (NewResult rows).GetColumnCount = 0 ∧ (NewResult rows).GetColumnNames = [] ∧
      (NewResult rows).GetRowCount = 0) := by
  refine ⟨?_, ?_⟩
  · intro cols hcols
    have hnr := newResult_ok rows cols hcols
    refine ⟨by rw [hnr]; rfl, by rw [hnr]; rfl, by rw [hnr]; simp [Result.GetRowCount], ?_, ?_⟩
    · intro i j vals hi hj
      have hilt : i < rows.scanned.length := by
        rcases Nat.lt_or_ge i rows.scanned.length with h | h
        · exact h
        · rw [List.get?_eq_none.mpr h] at hi; cases hi
      have hshape := newResult_shape rows
      have hlenR : (NewResult rows).resultData.length = rows.scanned.length := by
        rw [hnr]; simp
      have hlenC : (NewResult rows).columns.length = cols.length := by rw [hnr]
      obtain ⟨cells, text, hcells, htext, hv⟩ :=
        getValue_in_range (NewResult rows) hshape i j (by omega) (by omega) (by omega)
          (by omega)
      rw [hv]
      simp only [Int.toNat_ofNat] at hcells htext
      have hcells2 : cells = stringValues (scanInto cols.length vals) := by
        rw [hnr] at hcells
        simp only [List.get?_eq_getElem?, List.getElem?_map] at hcells hi
        rw [hi] at hcells
        simpa using hcells.symm
      rw [hcells2] at htext
      simp only [stringValues, scanInto, List.get?_eq_getElem?, List.getElem?_map,
        List.map_map] at htext
      rw [List.getElem?_range hj] at htext
      simp only [Option.map_some', Function.comp] at htext
      injection htext with htext
      rw [← htext]
    · intro hall
      rw [hnr]
      simp only [Result.GetRowCount, List.length_map]
      rw [scanned_length_of_all_ok rows.pending rows.columnsRes rows.closed hall]
  · intro e he
    rw [newResult_error rows e he]
    exact ⟨rfl, rfl, rfl⟩

open db in
/-- C12, at the cursor with column `x` and one row holding the integer 1: column
count 1, names `["x"]`, row count 1, and the cell `(0, 0)` reads `"1"`. -/
theorem newResult_snapshot_witness :
    (⟨.ok ["x"], [.ok [.int64 1]], false⟩ : Rows).columnsRes = .ok ["x"] ∧
    (NewResult ⟨.ok ["x"], [.ok [.int64 1]], false⟩).GetColumnCount = 1 ∧
    (NewResult ⟨.ok ["x"], [.ok [.int64 1]], false⟩).GetColumnNames = ["x"] ∧
    (NewResult ⟨.ok ["x"], [.ok [.int64 1]], false⟩).GetRowCount = 1 ∧
    (NewResult ⟨.ok ["x"], [.ok [.int64 1]], false⟩).GetValue 0 0 = some (.ok "1") :=
  ⟨rfl,
    ((newResult_snapshot ⟨.ok ["x"], [.ok [.int64 1]], false⟩).1 ["x"] rfl).1,
    ((newResult_snapshot ⟨.ok ["x"], [.ok [.int64 1]], false⟩).1 ["x"] rfl).2.1,
    ((newResult_snapshot ⟨.ok ["x"], [.ok [.int64 1]], false⟩).1 ["x"] rfl).2.2.1,
    ((newResult_snapshot ⟨.ok ["x"], [.ok [.int64 1]], false⟩).1 ["x"] rfl).2.2.2.1
      0 0 [.int64 1] rfl (by decide)⟩

namespace db

/-- When the column lookup succeeds, the cursor is closed when `NewResult`
returns, whether or not some `Scan` failed. -/
theorem newResult_closes_cursor (rows : Rows) (cols : List String)
    (h : rows.columnsRes = .ok cols) :
    ∃ cur, (NewResult rows).rows = some cur ∧ cur.closed = true := by
  rw [newResult_ok rows cols h]
  exact ⟨_, rfl, rfl⟩

/-- `Close` on a result object writes neither the rows nor the column names. -/
theorem result_close_keeps_snapshot (r : Result) :
    r.Close.resultData = r.resultData ∧ r.Close.columns = r.columns := by
  unfold Result.Close
  cases r.closed <;> simp

/-- One `Result` call on a well-shaped snapshot returns and keeps the snapshot. -/
theorem resultStep_preserves (r : Result)
    (hshape : ∀ cells ∈ r.resultData, cells.length = r.columns.length) (call : ResultCall) :
    ∃ r1, r.step call = some r1 ∧ r1.resultData = r.resultData ∧ r1.columns = r.columns := by
  cases call with
  | getValue row column =>
    refine ⟨r, ?_, rfl, rfl⟩
    by_cases hin : row < 0 ∨ row ≥ r.resultData.length ∨
        column < 0 ∨ column ≥ r.columns.length
    · obtain ⟨e, he⟩ := getValue_out_of_range r row column hin
      simp [Result.step, he]
    · obtain ⟨cells, text, -, -, hv⟩ :=
        getValue_in_range r hshape row column (by omega) (by omega) (by omega) (by omega)
      simp [Result.step, hv]
  | close =>
    exact ⟨r.Close, rfl, (result_close_keeps_snapshot r).1, (result_close_keeps_snapshot r).2⟩
  | getRowCount => exact ⟨r, rfl, rfl, rfl⟩
  | getColumnCount => exact ⟨r, rfl, rfl, rfl⟩
  | getColumnNames => exact ⟨r, rfl, rfl, rfl⟩
  | getHandle => exact ⟨r, rfl, rfl, rfl⟩

/-- Any sequence of calls on a well-shaped result object and on a connector in a
consistent state runs to the end and keeps the snapshot. -/
theorem runAll_preserves (calls : List AnyCall) (c : DBConnector) (r : Result)
    (hinv : c.connHandle ≠ 0 ↔ c.isConnected = true)
    (hdb : c.isConnected = true → c.db ≠ none)
    (hshape : ∀ cells ∈ r.resultData, cells.length = r.columns.length) :
    ∃ c1 r1, runAll c r calls = some (c1, r1) ∧
      r1.resultData = r.resultData ∧ r1.columns = r.columns := by
  induction calls generalizing c r with
  | nil => exact ⟨c, r, rfl, rfl, rfl⟩
  | cons call calls ih =>
    cases call with
    | onResult rc =>
      obtain ⟨r1, hstep, hd, hcols⟩ := resultStep_preserves r hshape rc
      obtain ⟨c2, r2, hrun, hd2, hcols2⟩ :=
        ih c r1 hinv hdb (by rw [hd, hcols]; exact hshape)
      exact ⟨c2, r2, by simp [runAll, hstep, hrun], by rw [hd2, hd], by rw [hcols2, hcols]⟩
    | onConnector dc =>
      obtain ⟨c1, ev, hstep, h1, h2⟩ := step_preserves c dc hinv hdb
      obtain ⟨c2, r2, hrun, hd2, hcols2⟩ := ih c1 r h1 h2 hshape
      exact ⟨c2, r2, by simp [runAll, hstep, hrun], hd2, hcols2⟩

/-- The four reads of a result object depend on the snapshot alone. -/
theorem reads_eq_of_snapshot_eq (r1 r : Result) (hd : r1.resultData = r.resultData)
    (hc : r1.columns = r.columns) :
    r1.GetRowCount = r.GetRowCount ∧ r1.GetColumnCount = r.GetColumnCount ∧
    r1.GetColumnNames = r.GetColumnNames ∧
    ∀ row column, r1.GetValue row column = r.GetValue row column := by
  refine ⟨?_, ?_, ?_, ?_⟩
  · simp [Result.GetRowCount, hd]
  · simp [Result.GetColumnCount, hc]
  · simp [Result.GetColumnNames, hc]
  · intro row column
    simp [Result.GetValue, hd, hc]

end db

open db in
/-- C14. Take the `Result` that `NewResult` built from any cursor and any reachable
connector. Every sequence of `Result` calls (`GetRowCount`, `GetColumnCount`,
`GetColumnNames`, `GetValue`, `Close`, `GetHandle`) and connector calls
(`Connect`, `Query`, `Close`, under any answers of the driver) runs to the end,
and afterwards `GetRowCount()`, `GetColumnCount()`, `GetColumnNames()` and
`GetValue(r, c)` for every `r`, `c` give what they gave before. In particular the
reads after `Result.Close` give the same values, and a second `Result.Close`
leaves the result object as the first one left it. -/
theorem snapshot_is_immutable (c : DBConnector) (hr : Reachable c) (rows : Rows)
    (calls : List AnyCall) :
    (∃ c1 r1, runAll c (NewResult rows) calls = some (c1, r1) ∧
      r1.GetRowCount = (NewResult rows).GetRowCount ∧
      r1.GetColumnCount = (NewResult rows).GetColumnCount ∧
      r1.GetColumnNames = (NewResult rows).GetColumnNames ∧
      ∀ row column, r1.GetValue row column = (NewResult rows).GetValue row column) ∧
    ((NewResult rows).Close.GetRowCount = (NewResult rows).GetRowCount ∧
      (NewResult rows).Close.GetColumnCount = (NewResult rows).GetColumnCount ∧
      (NewResult rows).Close.GetColumnNames = (NewResult rows).GetColumnNames ∧
      ∀ row column,
        (NewResult rows).Close.GetValue row column = (NewResult rows).GetValue row column) ∧
    (NewResult rows).Close.Close = (NewResult rows).Close := by
  obtain ⟨hinv, hdb⟩ := reachable_inv c hr
  refine ⟨?_, ?_, ?_⟩
  · obtain ⟨c1, r1, hrun, hd, hc⟩ :=
      runAll_preserves calls c (NewResult rows) hinv hdb (newResult_shape rows)
    exact ⟨c1, r1, hrun, reads_eq_of_snapshot_eq r1 (NewResult rows) hd hc⟩
  · exact reads_eq_of_snapshot_eq _ _ (result_close_keeps_snapshot _).1
      (result_close_keeps_snapshot _).2
  · generalize NewResult rows = r
    unfold Result.Close
    cases h : r.closed <;> simp [h]

open db in
/-- C14, at a connected connector and the one-cell result of a query on it: the
result is closed, the connector is closed, and the cell still reads `"1"`. -/
theorem snapshot_is_immutable_witness :
    Reachable ⟨"dsn", true, some 4, 1⟩ ∧
    ∃ c1 r1, runAll ⟨"dsn", true, some 4, 1⟩ (NewResult ⟨.ok ["x"], [.ok [.int64 1]], false⟩)
        [.onResult .close, .onConnector (.close none), .onResult (.getValue 0 0),
          .onResult .close] = some (c1, r1) ∧
      r1.GetRowCount = (NewResult ⟨.ok ["x"], [.ok [.int64 1]], false⟩).GetRowCount ∧
      r1.GetColumnCount = (NewResult ⟨.ok ["x"], [.ok [.int64 1]], false⟩).GetColumnCount ∧
      r1.GetColumnNames = (NewResult ⟨.ok ["x"], [.ok [.int64 1]], false⟩).GetColumnNames ∧
      ∀ row column, r1.GetValue row column
        = (NewResult ⟨.ok ["x"], [.ok [.int64 1]], false⟩).GetValue row column :=
  ⟨⟨"dsn", [.connect (.ok 4) none], rfl⟩,
    (snapshot_is_immutable ⟨"dsn", true, some 4, 1⟩ ⟨"dsn", [.connect (.ok 4) none], rfl⟩
      ⟨.ok ["x"], [.ok [.int64 1]], false⟩
      [.onResult .close, .onConnector (.close none), .onResult (.getValue 0 0),
        .onResult .close]).1⟩

/-! ## Call stubs and user records: auxiliary facts -/

namespace interop

/-- An entry stays as it is over a run that neither releases its handle nor lets
the counter come back to it. -/
theorem run_keeps_entry (cs : List Call) (s : Registry) (h : Nat) (val : Value)
    (hv : s.handleRegistry h = some val) (hf : Call.free h ∉ cs)
    (hs : s.nextHandle < 2 ^ 64)
    (hfresh : ∀ d, d < creations cs → (s.nextHandle + d) % 2 ^ 64 ≠ h) :
    (run s cs).handleRegistry h = some val := by
  induction cs generalizing s with
  | nil => simpa [run] using hv
  | cons c cs ih =>
    simp only [List.mem_cons, not_or] at hf
    rw [creations_cons] at hfresh
    simp only [run]
    by_cases hc : c.isCreate = true
    · obtain ⟨v, htab, hcnt, -⟩ := step_create s c hc
      simp only [hc, if_true] at hfresh
      have hne : h ≠ s.nextHandle := by
        have := hfresh 0 (by omega)
        intro e
        apply this
        rw [Nat.add_zero, Nat.mod_eq_of_lt hs]
        exact e.symm
      apply ih _ _ hf.2
      · rw [hcnt]; omega
      · intro d hd
        have := hfresh (d + 1) (by omega)
        rw [hcnt]
        intro e
        apply this
        rw [← e]
        omega
      · rw [htab]
        simp [mapStore, hne, hv]
    · cases c with
      | free k =>
        have h1 := step_free_counter s k
        have hne : h ≠ k := fun e => hf.1 (by rw [e])
        simp only [Call.isCreate, Bool.false_eq_true, if_false, Nat.zero_add] at hfresh
        apply ih _ _ hf.2
        · rw [h1]; exact hs
        · rw [h1]; exact hfresh
        · rw [step_free_table]
          simp [hne, hv]
      | _ => simp [Call.isCreate] at hc

end interop

/-! ## Call stubs and user records: claims -/

open interop in
/-- C15. For every function, class and method name and every argument list,
`CallMojoFunction`, `CallJavaMethod` and `CallSwiftFunction` each return the nil
value together with a non-nil error whose message contains "not implemented"; so
no input makes any of them return a nil error. -/
theorem call_stubs_always_fail (funcName className methodName : String)
    (args : List Value) :
    ((CallMojoFunction funcName args).1 = .nil ∧
      ∃ msg, (CallMojoFunction funcName args).2 = some msg ∧
        occursIn "not implemented" msg) ∧
    ((CallJavaMethod className methodName args).1 = .nil ∧
      ∃ msg, (CallJavaMethod className methodName args).2 = some msg ∧
        occursIn "not implemented" msg) ∧
    ((CallSwiftFunction funcName args).1 = .nil ∧
      ∃ msg, (CallSwiftFunction funcName args).2 = some msg ∧
        occursIn "not implemented" msg) :=
  ⟨⟨rfl, "mojo function calls not implemented", rfl, by decide⟩,
    ⟨rfl, "java method calls not implemented", rfl, by decide⟩,
    ⟨rfl, "swift function calls not implemented", rfl, by decide⟩⟩

open interop in
/-- C16 fails as stated: the error that `CallMojoFunction("anyFunc")` returns does
not contain the text "anyFunc", and the error that
`CallJavaMethod("Greeter", "hello")` returns contains neither name. -/
theorem call_stub_error_omits_symbol :
    (∃ msg, (CallMojoFunction "anyFunc" []).2 = some msg ∧ ¬ occursIn "anyFunc" msg) ∧
    (∃ msg, (CallJavaMethod "Greeter" "hello" []).2 = some msg ∧
      ¬ occursIn "Greeter" msg ∧ ¬ occursIn "hello" msg) :=
  ⟨⟨"mojo function calls not implemented", rfl, by decide⟩,
    ⟨"java method calls not implemented", rfl, by decide, by decide⟩⟩

open interop in
/-- C16, amended. For every requested symbol and argument list, the error each
call stub returns names its target runtime and is one fixed message per stub:
"mojo function calls not implemented", "java method calls not implemented" and
"swift function calls not implemented", which contain "mojo", "java" and "swift"
respectively. Two calls of the same stub with any two symbols and argument lists
return the same error, so the message holds the symbol passed in exactly when the
symbol occurs in that fixed text. -/
theorem call_stub_error_names_runtime (funcName className methodName : String)
    (args : List Value) :
    ((CallMojoFunction funcName args).2 = some "mojo function calls not implemented" ∧
      occursIn "mojo" "mojo function calls not implemented") ∧
    ((CallJavaMethod className methodName args).2
        = some "java method calls not implemented" ∧
      occursIn "java" "java method calls not implemented") ∧
    ((CallSwiftFunction funcName args).2 = some "swift function calls not implemented" ∧
      occursIn "swift" "swift function calls not implemented") ∧
    (∀ funcName2 className2 methodName2 args2,
      (CallMojoFunction funcName2 args2).2 = (CallMojoFunction funcName args).2 ∧
      (CallJavaMethod className2 methodName2 args2).2
        = (CallJavaMethod className methodName args).2 ∧
      (CallSwiftFunction funcName2 args2).2 = (CallSwiftFunction funcName args).2) ∧
    (∀ msg, (CallMojoFunction funcName args).2 = some msg →
      (occursIn funcName msg ↔ occursIn funcName "mojo function calls not implemented")) ∧
    (∀ msg, (CallJavaMethod className methodName args).2 = some msg →
      (occursIn className msg ↔ occursIn className "java method calls not implemented") ∧
      (occursIn methodName msg ↔ occursIn methodName "java method calls not implemented")) ∧
    (∀ msg, (CallSwiftFunction funcName args).2 = some msg →
      (occursIn funcName msg ↔ occursIn funcName "swift function calls not implemented")) := by
  refine ⟨⟨rfl, by decide⟩, ⟨rfl, by decide⟩, ⟨rfl, by decide⟩,
    fun _ _ _ _ => ⟨rfl, rfl, rfl⟩, ?_, ?_, ?_⟩
  · intro msg h
    have e : msg = "mojo function calls not implemented" := by
      simp only [CallMojoFunction] at h
      injection h with h
      exact h.symm
    rw [e]
  · intro msg h
    have e : msg = "java method calls not implemented" := by
      simp only [CallJavaMethod] at h
      injection h with h
      exact h.symm
    rw [e]
    exact ⟨Iff.rfl, Iff.rfl⟩
  · intro msg h
    have e : msg = "swift function calls not implemented" := by
      simp only [CallSwiftFunction] at h
      injection h with h
      exact h.symm
    rw [e]

open interop in
/-- C17. In every registry state and for every id, username and email, let `h` be
the handle `CreateUserHandle(id, username, email)` returns. Then
`ExtractUserData(h)` succeeds with exactly `(id, username, email)` right away and
after any further calls that contain no `FreeHandle(h)`: creations by any of the
three creators and releases of other handles, the run staying below the `2^64`
creations at which the 64-bit counter would be exhausted. A `FreeHandle(h)` made
then succeeds, and after it `ExtractUserData(h)` returns an error. -/
theorem user_round_trip (r : Registry) (id : Int) (username email : String)
    (cs : List Call)
    (hfree : Call.free (CreateUserHandle r id username email).2 ∉ cs)
    (hn : creations cs < 2 ^ 64) :
    ExtractUserData (CreateUserHandle r id username email).1
        (CreateUserHandle r id username email).2
      = .ok ⟨id, username, email⟩ ∧
    ExtractUserData (run (CreateUserHandle r id username email).1 cs)
        (CreateUserHandle r id username email).2
      = .ok ⟨id, username, email⟩ ∧
    (FreeHandle (run (CreateUserHandle r id username email).1 cs)
        (CreateUserHandle r id username email).2).2 = none ∧
    (∃ e, ExtractUserData
        (FreeHandle (run (CreateUserHandle r id username email).1 cs)
          (CreateUserHandle r id username email).2).1
        (CreateUserHandle r id username email).2 = .error e) := by
  have h0 : (CreateUserHandle r id username email).1.handleRegistry
      (CreateUserHandle r id username email).2 = some (.userData ⟨id, username, email⟩) := by
    simp [CreateUserHandle, mapStore]
  have hcnt : (CreateUserHandle r id username email).1.nextHandle
      = (r.nextHandle + 1) % 2 ^ 64 := rfl
  have hh : (CreateUserHandle r id username email).2 = r.nextHandle := rfl
  have hkeep := run_keeps_entry cs (CreateUserHandle r id username email).1
    (CreateUserHandle r id username email).2 (.userData ⟨id, username, email⟩) h0 hfree
    (by rw [hcnt]; omega)
    (by
      intro d hd
      rw [hcnt, hh]
      omega)
  refine ⟨by simp only [ExtractUserData, h0], by simp only [ExtractUserData, hkeep],
    by simp only [FreeHandle, hkeep], ?_⟩
  refine ⟨"invalid user handle: " ++ toString (CreateUserHandle r id username email).2, ?_⟩
  simp only [FreeHandle, hkeep, ExtractUserData, mapDelete, if_true]

open interop in
/-- C17, at a registry holding one entry: the user record is created under handle
2, survives a creation and the release of handle 1, and is read back. -/
theorem user_round_trip_witness :
    Call.free (CreateUserHandle (CreateConnHandle Registry.init (.obj 9)).1 7 "u" "e").2
      ∉ [Call.createResult .nil, Call.free 1] ∧
    creations [Call.createResult .nil, Call.free 1] < 2 ^ 64 ∧
    ExtractUserData
      (run (CreateUserHandle (CreateConnHandle Registry.init (.obj 9)).1 7 "u" "e").1
        [Call.createResult .nil, Call.free 1])
      (CreateUserHandle (CreateConnHandle Registry.init (.obj 9)).1 7 "u" "e").2
      = .ok ⟨7, "u", "e"⟩ :=
  ⟨by decide, by decide,
    (user_round_trip (CreateConnHandle Registry.init (.obj 9)).1 7 "u" "e"
      [Call.createResult .nil, Call.free 1] (by decide) (by decide)).2.1⟩

/-! ## Handles and connection objects of the connector: auxiliary facts -/

namespace db

/-- A call keeps the fact that a connected connector holds the handle 1. -/
theorem step_keeps_handle_one (c c1 : DBConnector) (call : DBCall) (ev : List Event)
    (hone : c.isConnected = true → c.connHandle = 1)
    (hstep : c.step call = some (c1, ev)) :
    c1.isConnected = true → c1.connHandle = 1 := by
  obtain ⟨cs, conn, d, hd⟩ := c
  cases call with
  | connect openRes pingRes =>
    cases conn with
    | true =>
      simp only [DBConnector.step, DBConnector.Connect, if_true] at hstep
      injection hstep with hstep
      injection hstep with e1 _
      rw [← e1]; exact hone
    | false =>
      cases openRes with
      | error e =>
        simp [DBConnector.step, DBConnector.Connect] at hstep
        rw [← hstep.1]; simp
      | ok d1 =>
        cases pingRes with
        | some e =>
          simp [DBConnector.step, DBConnector.Connect] at hstep
          rw [← hstep.1]; simp
        | none =>
          simp [DBConnector.step, DBConnector.Connect, interop.CreateConnHandle] at hstep
          rw [← hstep.1]; simp
  | close closeRes =>
    cases hclose : DBConnector.Close ⟨cs, conn, d, hd⟩ closeRes with
    | none => simp [DBConnector.step, hclose] at hstep
    | some p =>
      obtain ⟨c2, ret, ev2⟩ := p
      have hoff := close_clears_flag _ c2 closeRes ret ev2 hclose
      simp [DBConnector.step, hclose] at hstep
      rw [← hstep.1, hoff]
      intro h; cases h
  | query q args queryRes =>
    cases conn with
    | false =>
      simp [DBConnector.step, DBConnector.Query] at hstep
      rw [← hstep.1]; simp
    | true =>
      cases d with
      | none => simp [DBConnector.step, DBConnector.Query] at hstep
      | some d1 =>
        cases queryRes with
        | error e =>
          simp [DBConnector.step, DBConnector.Query] at hstep
          rw [← hstep.1]; exact hone
        | ok rows =>
          simp [DBConnector.step, DBConnector.Query] at hstep
          rw [← hstep.1]; exact hone

theorem runCalls_keeps_handle_one (calls : List DBCall) (c c1 : DBConnector)
    (hone : c.isConnected = true → c.connHandle = 1)
    (hrun : c.runCalls calls = some c1) :
    c1.isConnected = true → c1.connHandle = 1 := by
  induction calls generalizing c with
  | nil =>
    simp only [DBConnector.runCalls] at hrun
    injection hrun with e
    rw [← e]; exact hone
  | cons call calls ih =>
    simp only [DBConnector.runCalls] at hrun
    cases hstep : c.step call with
    | none => simp [hstep] at hrun
    | some p =>
      obtain ⟨c2, ev⟩ := p
      simp only [hstep] at hrun
      exact ih c2 (step_keeps_handle_one c c2 call ev hone hstep) hrun

theorem reachable_handle_one (c : DBConnector) (hr : Reachable c)
    (hc : c.isConnected = true) : c.connHandle = 1 := by
  obtain ⟨cs, calls, hrun⟩ := hr
  exact runCalls_keeps_handle_one calls (NewDBConnector cs) c
    (by simp [NewDBConnector]) hrun hc

end db

/-! ## Handles and connection objects of the connector: claims -/

open db in
/-- C18 fails as stated: for the user `(1, "alice", "alice@example.com")`,
`ToHandle` returns 3 and `NewUserFromHandle` of it returns, without error, the
user `(0, "", "")`, which is not the user the handle was made from. -/
theorem user_handle_round_trip_loses_user :
    User.ToHandle ⟨1, "alice", "alice@example.com"⟩ = 3 ∧
    NewUserFromHandle (User.ToHandle ⟨1, "alice", "alice@example.com"⟩) = .ok ⟨0, "", ""⟩ ∧
    NewUserFromHandle (User.ToHandle ⟨1, "alice", "alice@example.com"⟩)
      ≠ .ok ⟨1, "alice", "alice@example.com"⟩ := by
  decide

open db in
/-- C18, amended. For every `User` `u`, `u.ToHandle()` is 3 and
`NewUserFromHandle(u.ToHandle())` succeeds and returns the user with ID 0 and
empty Username and Email; it returns `u` exactly when `u` is that user. -/
theorem user_handle_round_trip (u : User) :
    u.ToHandle = 3 ∧
    NewUserFromHandle u.ToHandle = .ok ⟨0, "", ""⟩ ∧
    (NewUserFromHandle u.ToHandle = .ok u ↔ u = ⟨0, "", ""⟩) := by
  refine ⟨rfl, rfl, ?_⟩
  constructor
  · intro h
    have h2 : NewUserFromHandle u.ToHandle = .ok ⟨0, "", ""⟩ := rfl
    rw [h2] at h
    injection h with h
    exact h.symm
  · intro h
    rw [h]
    rfl

open db in
/-- C19 fails as stated: two different connectors, both connected, hold the same
handle 1, and `GetHandle` on two different results returns the same handle 2. -/
theorem db_handles_are_shared :
    ((NewDBConnector "a").Connect (.ok 4) none).1 ≠ ((NewDBConnector "b").Connect (.ok 5) none).1 ∧
    ((NewDBConnector "a").Connect (.ok 4) none).1.isConnected = true ∧
    ((NewDBConnector "b").Connect (.ok 5) none).1.isConnected = true ∧
    ((NewDBConnector "a").Connect (.ok 4) none).1.connHandle = 1 ∧
    ((NewDBConnector "b").Connect (.ok 5) none).1.connHandle = 1 ∧
    NewResult ⟨.ok ["x"], [.ok [.int64 1]], false⟩
      ≠ NewResult ⟨.ok ["y"], [.ok [.int64 2]], false⟩ ∧
    (NewResult ⟨.ok ["x"], [.ok [.int64 1]], false⟩).GetHandle = 2 ∧
    (NewResult ⟨.ok ["y"], [.ok [.int64 2]], false⟩).GetHandle = 2 := by
  decide

open db in
/-- C19, amended. The handles the db package issues depend on the kind of
resource only: every reachable connector that is connected holds the handle 1,
and `GetHandle` on every result returns 2. So a connector handle and a result
handle are distinct, two connected connectors hold equal handles, and two results
get equal handles. -/
theorem db_handles_by_kind (c1 c2 : DBConnector) (h1 : Reachable c1) (h2 : Reachable c2)
    (hc1 : c1.isConnected = true) (hc2 : c2.isConnected = true) (r1 r2 : Result) :
    c1.connHandle = 1 ∧ r1.GetHandle = 2 ∧ c1.connHandle ≠ r1.GetHandle ∧
    c1.connHandle = c2.connHandle ∧ r1.GetHandle = r2.GetHandle := by
  have e1 := reachable_handle_one c1 h1 hc1
  have e2 := reachable_handle_one c2 h2 hc2
  have g1 : r1.GetHandle = 2 := rfl
  have g2 : r2.GetHandle = 2 := rfl
  refine ⟨e1, g1, ?_, by rw [e1, e2], by rw [g1, g2]⟩
  rw [e1, g1]
  decide

open db in
/-- C19, at two connected connectors and two results. -/
theorem db_handles_by_kind_witness :
    Reachable ⟨"a", true, some 4, 1⟩ ∧ Reachable ⟨"b", true, some 5, 1⟩ ∧
    (⟨"a", true, some 4, 1⟩ : DBConnector).connHandle = 1 ∧
    (NewResult ⟨.ok ["x"], [.ok [.int64 1]], false⟩).GetHandle = 2 ∧
    (⟨"a", true, some 4, 1⟩ : DBConnector).connHandle
      ≠ (NewResult ⟨.ok ["x"], [.ok [.int64 1]], false⟩).GetHandle ∧
    (⟨"a", true, some 4, 1⟩ : DBConnector).connHandle
      = (⟨"b", true, some 5, 1⟩ : DBConnector).connHandle ∧
    (NewResult ⟨.ok ["x"], [.ok [.int64 1]], false⟩).GetHandle
      = (NewResult ⟨.ok ["y"], [.ok [.int64 2]], false⟩).GetHandle :=
  ⟨⟨"a", [.connect (.ok 4) none], rfl⟩, ⟨"b", [.connect (.ok 5) none], rfl⟩,
    db_handles_by_kind ⟨"a", true, some 4, 1⟩ ⟨"b", true, some 5, 1⟩
      ⟨"a", [.connect (.ok 4) none], rfl⟩ ⟨"b", [.connect (.ok 5) none], rfl⟩ rfl rfl
      (NewResult ⟨.ok ["x"], [.ok [.int64 1]], false⟩)
      (NewResult ⟨.ok ["y"], [.ok [.int64 2]], false⟩)⟩

open db in
/-- C20 fails as stated: a `Connect` whose ping fails, and a `Connect` followed by
a `Close`, both lead to a state with `isConnected` false in which the `db` field
is still set. -/
theorem db_field_set_while_disconnected :
    (NewDBConnector "dsn").runCalls [.connect (.ok 4) (some "timeout")]
      = some ⟨"dsn", false, some 4, 0⟩ ∧
    (NewDBConnector "dsn").runCalls [.connect (.ok 4) none, .close none]
      = some ⟨"dsn", false, some 4, 0⟩ ∧
    (⟨"dsn", false, some 4, 0⟩ : DBConnector).isConnected = false ∧
    (⟨"dsn", false, some 4, 0⟩ : DBConnector).db ≠ none := by
  decide

open db in
/-- C20, amended. From `NewDBConnector`, every finite sequence of `Connect`,
`Close` and `Query` calls under any answers of the driver runs to the end, and in
the state it reaches the `db` field is set whenever the open flag is true. The
converse does not hold: from such a state with the flag false, a `Connect` that
fails at the ping leaves `db` set to the connection object it opened, and from
such a state with the flag true, `Close` returns and leaves `db` as it was. -/
theorem connected_implies_db_set (connectionString : String) (calls : List DBCall)
    (d : Nat) (e : String) (closeRes : Option String) :
    ∃ c, (NewDBConnector connectionString).runCalls calls = some c ∧
      (c.isConnected = true → c.db ≠ none) ∧
      (c.isConnected = false →
        (c.Connect (.ok d) (some e)).1.db = some d ∧
        (c.Connect (.ok d) (some e)).1.isConnected = false) ∧
      (c.isConnected = true →
        ∃ c1 ret ev, c.Close closeRes = some (c1, ret, ev) ∧
          c1.db = c.db ∧ c1.isConnected = false) := by
  obtain ⟨c, hrun, hinv, hdb⟩ :=
    runCalls_preserves calls (NewDBConnector connectionString) (by simp [NewDBConnector])
      (by simp [NewDBConnector])
  refine ⟨c, hrun, hdb, ?_, ?_⟩
  · intro hoff
    simp [DBConnector.Connect, hoff]
  · intro hon
    have h0 : c.connHandle ≠ 0 := hinv.mpr hon
    cases hd : c.db with
    | none => exact absurd hd (hdb hon)
    | some d1 =>
      exact ⟨{ c with connHandle := 0, isConnected := false }, closeRes,
        [.freeHandle c.connHandle, .dbClose d1],
        by simp [DBConnector.Close, hon, h0, hd], hd, rfl⟩

/-! ## Snapshot shape and kind-blind resolution: claims -/

open db in
/-- C21. For the `Result` that `NewResult` builds from any cursor, also one whose
column lookup fails or some of whose scans fail, every row stored in `resultData`
has exactly `len(columns)` cells; so for all integers `row` and `column` the call
`GetValue(row, column)` returns (an error or a text) and never indexes out of
range. -/
theorem snapshot_rows_match_columns (rows : Rows) :
    (∀ cells ∈ (NewResult rows).resultData,
      cells.length = (NewResult rows).columns.length) ∧
    (∀ row column : Int, ∃ out, (NewResult rows).GetValue row column = some out) := by
  refine ⟨newResult_shape rows, ?_⟩
  intro row column
  by_cases hin : row < 0 ∨ row ≥ (NewResult rows).resultData.length ∨
      column < 0 ∨ column ≥ (NewResult rows).columns.length
  · obtain ⟨e, he⟩ := getValue_out_of_range (NewResult rows) row column hin
    exact ⟨_, he⟩
  · obtain ⟨cells, text, -, -, hv⟩ :=
      getValue_in_range (NewResult rows) (newResult_shape rows) row column
        (by omega) (by omega) (by omega) (by omega)
    exact ⟨_, hv⟩

open interop in
/-- C22. In every registry state and for every handle `h`,
`GetConnectorFromHandle(h)` and `GetResultFromHandle(h)` both fail (when `h` is
not a key) or both succeed with the value stored under `h`. So the handle that
`CreateResultHandle` or `CreateUserHandle` returns resolves through
`GetConnectorFromHandle`. `ExtractUserData(h)` alone looks at the kind: on a
registered handle whose entry is not user data it fails while the other two
succeed. All three only read the table (they are functions of the state and give
no new state). -/
theorem resolution_ignores_kind (r : Registry) (h : Nat) :
    ((r.handleRegistry h = none ∧
        (∃ e, GetConnectorFromHandle r h = .error e) ∧
        (∃ e, GetResultFromHandle r h = .error e)) ∨
      (∃ v, r.handleRegistry h = some v ∧
        GetConnectorFromHandle r h = .ok v ∧ GetResultFromHandle r h = .ok v)) ∧
    (∀ x, GetConnectorFromHandle (CreateResultHandle r x).1 (CreateResultHandle r x).2
        = .ok x) ∧
    (∀ id username email,
      GetConnectorFromHandle (CreateUserHandle r id username email).1
          (CreateUserHandle r id username email).2
        = .ok (.userData ⟨id, username, email⟩)) ∧
    (∀ v, r.handleRegistry h = some v → (∀ u, v ≠ .userData u) →
      ExtractUserData r h
          = .error ("handle " ++ toString h ++ " does not contain user data") ∧
        GetConnectorFromHandle r h = .ok v ∧ GetResultFromHandle r h = .ok v) := by
  refine ⟨?_, ?_, ?_, ?_⟩
  · cases hv : r.handleRegistry h with
    | none =>
      exact Or.inl ⟨rfl,
        ⟨"invalid connector handle: " ++ toString h, by simp only [GetConnectorFromHandle, hv]⟩,
        ⟨"invalid result handle: " ++ toString h, by simp only [GetResultFromHandle, hv]⟩⟩
    | some v =>
      exact Or.inr ⟨v, rfl, by simp only [GetConnectorFromHandle, hv],
        by simp only [GetResultFromHandle, hv]⟩
  · intro x
    simp [GetConnectorFromHandle, CreateResultHandle, mapStore]
  · intro id username email
    simp [GetConnectorFromHandle, CreateUserHandle, mapStore]
  · intro v hv hkind
    refine ⟨?_, by simp only [GetConnectorFromHandle, hv],
      by simp only [GetResultFromHandle, hv]⟩
    cases v with
    | userData u => exact absurd rfl (hkind u)
    | nil => simp only [ExtractUserData, hv]
    | obj id => simp only [ExtractUserData, hv]

/-! ## The gRPC user service and the analysis handlers: auxiliary facts -/

namespace vertex

theorem convertPredictions_length (asMap : Json → Except GoError Json)
    (resp acc ps : List Json) (h : convertPredictions asMap resp acc = .ok ps) :
    ps.length = acc.length + resp.length := by
  induction resp generalizing acc with
  | nil =>
    simp only [convertPredictions] at h
    injection h with h
    rw [← h]; simp
  | cons p rest ih =>
    simp only [convertPredictions] at h
    cases hp : asMap p with
    | error e => simp [hp] at h
    | ok m =>
      simp only [hp] at h
      have := ih _ h
      simp only [List.length_append, List.length_cons, List.length_nil] at this ⊢
      omega

/-- A successful `Predict` returns one entry per prediction of the reply. -/
theorem predict_length (instances : List Json) (newValue : Json → Except GoError Json)
    (predictRes : Except GoError (List Json)) (asMap : Json → Except GoError Json)
    (ps : List Json) (h : Client.Predict instances newValue predictRes asMap = .ok ps) :
    ∃ resp, predictRes = .ok resp ∧ ps.length = resp.length := by
  unfold Client.Predict at h
  cases hc : convertInstances newValue instances with
  | error e => simp [hc] at h
  | ok vs =>
    simp only [hc] at h
    cases hp : predictRes with
    | error e => simp [hp] at h
    | ok resp =>
      simp only [hp] at h
      exact ⟨resp, rfl, by simpa using convertPredictions_length asMap resp [] ps h⟩

/-- With a reply that holds no prediction, `Predict` returns the empty list and a
nil error whenever the instances convert. -/
theorem predict_empty_reply (instances vs : List Json)
    (newValue : Json → Except GoError Json) (asMap : Json → Except GoError Json)
    (hc : convertInstances newValue instances = .ok vs) :
    Client.Predict instances newValue (.ok []) asMap = .ok [] := by
  simp [Client.Predict, hc, convertPredictions]

end vertex

namespace api

/-- With a reply that holds at least one prediction, `analyzeWithRCCTHandler`
writes a response and does not panic. -/
theorem analyze_returns_of_nonempty_reply (decodeRes : Except GoError RCCTRequest)
    (scanRes : Except GoError models.User) (newValue : Json → Except GoError Json)
    (p : Json) (resp : List Json) (asMap : Json → Except GoError Json) :
    ∃ w, analyzeWithRCCTHandler decodeRes scanRes newValue (.ok (p :: resp)) asMap
      = some w := by
  unfold analyzeWithRCCTHandler
  cases decodeRes with
  | error e => exact ⟨_, rfl⟩
  | ok requestData =>
    simp only
    generalize hinst : ([Json.object [("text", .string requestData.Input),
        ("parameters", .object [("meta_analysis", .bool requestData.MetaAnalysis),
          ("model_params", .stringMap requestData.ModelParams)])]] : List Json) = instances
    cases hp : vertex.Client.Predict instances newValue (.ok (p :: resp)) asMap with
    | error e => exact ⟨_, rfl⟩
    | ok ps =>
      obtain ⟨resp2, hresp, hlen⟩ := vertex.predict_length _ _ _ _ _ hp
      injection hresp with hresp
      cases ps with
      | nil => rw [← hresp] at hlen; simp at hlen
      | cons first rest => exact ⟨_, rfl⟩

/-- When the conversion of the instance fails, as `structpb.NewValue` does on the
`map[string]string` that the instance of `analyzeWithRCCTHandler` holds, the
prediction service is not asked, and the handler answers 500 without reading
`predictions[0]`, whatever the service would reply. -/
theorem analyze_answers_500_on_rejected_instance (requestData : RCCTRequest)
    (scanRes : Except GoError models.User) (newValue : Json → Except GoError Json)
    (predictRes : Except GoError (List Json)) (asMap : Json → Except GoError Json)
    (err : GoError)
    (hrej : newValue (.object [("text", .string requestData.Input),
        ("parameters", .object [("meta_analysis", .bool requestData.MetaAnalysis),
          ("model_params", .stringMap requestData.ModelParams)])]) = .error err) :
    analyzeWithRCCTHandler (.ok requestData) scanRes newValue predictRes asMap
      = some (.httpError ("Analysis failed: "
          ++ ("failed to convert instance to structpb.Value: " ++ err.Error)) 500) := by
  simp [analyzeWithRCCTHandler, vertex.Client.Predict, vertex.convertInstances, hrej,
    GoError.Error]

end api

/-! ## The gRPC user service and the analysis handlers: claims -/

/-- C23 at the failing input: when the query of `GetUserByID` selects no row
(`Scan` answers `sql.ErrNoRows`), `GetUserByID` returns a new error with the
message "user with ID <id> not found", which is not the value `sql.ErrNoRows`;
`GetUser` therefore returns the response with ErrorMessage "Internal server error"
and a status error of code Internal, for every request id. -/
theorem getUser_missing_row_gives_internal (reqId : Int) :
    projectdb.GetUserByID reqId (.error .ErrNoRows)
      = .error (.errorf ("user with ID " ++ toString reqId ++ " not found")) ∧
    server.GetUser reqId (.error .ErrNoRows)
      = ({ User := none, ErrorMessage := "Internal server error" },
          some { code := .Internal,
                 message := "user with ID " ++ toString reqId ++ " not found" }) ∧
    (server.GetUser reqId (.error .ErrNoRows)).1.ErrorMessage
      ≠ "User with ID " ++ toString reqId ++ " not found" ∧
    (server.GetUser reqId (.error .ErrNoRows)).2.map (fun st => st.code)
      ≠ some .NotFound := by
  have h1 : projectdb.GetUserByID reqId (.error .ErrNoRows)
      = .error (.errorf ("user with ID " ++ toString reqId ++ " not found")) := by
    simp [projectdb.GetUserByID]
  have h2 : server.GetUser reqId (.error .ErrNoRows)
      = ({ User := none, ErrorMessage := "Internal server error" },
          some { code := .Internal,
                 message := "user with ID " ++ toString reqId ++ " not found" }) := by
    simp [server.GetUser, h1, GoError.Error]
  refine ⟨h1, h2, ?_, ?_⟩
  · rw [h2]
    intro h
    have hd := congrArg String.data h
    simp only [String.data_append] at hd
    have hhead := congrArg List.head? hd
    have e1 : ("Internal server error" : String).data.head? = some 'I' := by decide
    have e2 : (("User with ID " : String).data ++ (toString reqId).data
        ++ (" not found" : String).data).head? = some 'U' := by
      rw [List.append_assoc]
      have : ("User with ID " : String).data
          = 'U' :: ("ser with ID " : String).data := by decide
      rw [this]; rfl
    rw [e1, e2] at hhead
    exact absurd hhead (by decide)
  · rw [h2]
    simp

/-- C24 at the failing input: `GetUserWithVertexAnalysis`, when the user service
answers 200 with a body that decodes to `userData`, the instance built from it
converts, and the prediction service replies successfully with zero predictions.
`Predict` then returns the empty list with a nil error (one entry per prediction
of the reply), and the handler goes on to read `predictions[0]` and panics with
an index out of range. -/
theorem getUserWithVertexAnalysis_panics_on_empty_reply (body : String)
    (userData value : Json) (newValue : Json → Except GoError Json)
    (asMap : Json → Except GoError Json)
    (hconv : newValue (.object [("user_data", userData),
        ("analysis_type", .string "user_profile")]) = .ok value) :
    vertex.Client.Predict
        [.object [("user_data", userData), ("analysis_type", .string "user_profile")]]
        newValue (.ok []) asMap = .ok [] ∧
    api.GetUserWithVertexAnalysis (.ok (200, body)) (.ok userData) newValue (.ok []) asMap
      = none := by
  have hp : vertex.Client.Predict
      [.object [("user_data", userData), ("analysis_type", .string "user_profile")]]
      newValue (.ok []) asMap = .ok [] :=
    vertex.predict_empty_reply _ [value] _ _ (by simp [vertex.convertInstances, hconv])
  refine ⟨hp, ?_⟩
  unfold api.GetUserWithVertexAnalysis
  simp only [hp, ne_eq, not_true_eq_false, if_false]

/-- C24, at the user record with the one field `id = 7`, every conversion
succeeding. -/
theorem getUserWithVertexAnalysis_panics_on_empty_reply_witness :
    (fun v : Json => (Except.ok v : Except GoError Json))
        (.object [("user_data", .object [("id", .number 7)]),
          ("analysis_type", .string "user_profile")])
      = .ok (.object [("user_data", .object [("id", .number 7)]),
          ("analysis_type", .string "user_profile")]) ∧
    vertex.Client.Predict
        [.object [("user_data", .object [("id", .number 7)]),
          ("analysis_type", .string "user_profile")]]
        (fun v => .ok v) (.ok []) (fun v => .ok v) = .ok [] ∧
    api.GetUserWithVertexAnalysis (.ok (200, "user 7")) (.ok (.object [("id", .number 7)]))
        (fun v => .ok v) (.ok []) (fun v => .ok v)
      = none :=
  ⟨rfl,
    getUserWithVertexAnalysis_panics_on_empty_reply "user 7" (.object [("id", .number 7)])
      (.object [("user_data", .object [("id", .number 7)]),
        ("analysis_type", .string "user_profile")])
      (fun v => .ok v) (fun v => .ok v) rfl⟩
